/-
Verification of the membership engine of cmonkey2 (`cmonkey/membership.py`).

The two membership representations (`ClusterMembership` and `OrigMembership`),
their mutating operations, the density-score fallback logic, the updater's
delta-replacement steps and the post-adjustment candidate selection are
shallowly embedded below.  Python dictionaries become association lists
(`AMap`) from `Nat` keys to `List Nat` values, Python sets become
duplicate-free lists whose order is irrelevant (only membership is ever
observed), Python floating-point scores become rationals (only order
comparisons on scores occur in the modelled code), and Python exceptions
become `Except` values whose error component carries the state at the moment
the exception escaped (mutations performed before the raise are visible in
that state, exactly as in Python).
-/
import Mathlib

/-! ## Association lists: the model of Python dicts with `Nat` keys and
`List Nat` values -/

/-- Finite map as an association list, modelling a Python dict
`{int: set/list of int}`. -/
abbrev AMap := List (Nat × List Nat)

/-- `d.get(k)` returning the first binding, `none` when the key is absent. -/
def alookup : AMap → Nat → Option (List Nat)
  | [], _ => none
  | p :: rest, k => if p.1 = k then some p.2 else alookup rest k

/-- `d[k] = v`: overwrite the binding when the key is present (all bindings of
that key, which coincide on well-formed states), append it otherwise. -/
def aset (a : AMap) (k : Nat) (v : List Nat) : AMap :=
  if (alookup a k).isSome then
    a.map (fun p => if p.1 = k then (k, v) else p)
  else
    a ++ [(k, v)]

/-- Python `set.add`: insert the element when absent, keep the list unchanged
otherwise. -/
def setAdd (l : List Nat) (x : Nat) : List Nat :=
  if x ∈ l then l else x :: l

/-- Python `list.index(v)` / `array.index(v)`: index of the first occurrence,
`none` modelling the `ValueError`. -/
def pyIndex (l : List Nat) (v : Nat) : Option Nat :=
  match l with
  | [] => none
  | x :: xs => if x = v then some 0 else (pyIndex xs v).map (· + 1)

/-- The keys of the association list are pairwise distinct (Python dicts). -/
def keysNodup (a : AMap) : Prop := (a.map Prod.fst).Nodup

/-- Every value list is duplicate-free (the model of Python set values). -/
def valsNodup (a : AMap) : Prop := ∀ p ∈ a, List.Nodup p.2

/-! ### Lemmas about the association-list primitives -/

theorem alookup_append (a b : AMap) (k : Nat) :
    alookup (a ++ b) k =
      match alookup a k with
      | some v => some v
      | none => alookup b k := by
  induction a with
  | nil => simp [alookup]
  | cons p rest ih =>
    by_cases hp : p.1 = k
    · simp [alookup, hp]
    · simpa [alookup, hp] using ih

theorem alookup_overwrite (a : AMap) (k : Nat) (v : List Nat) (k' : Nat) :
    alookup (a.map (fun p => if p.1 = k then (k, v) else p)) k' =
      if k' = k then (if (alookup a k).isSome then some v else none)
      else alookup a k' := by
  induction a with
  | nil => simp [alookup]
  | cons p rest ih =>
    by_cases hp : p.1 = k
    · by_cases hk : k' = k
      · subst hk; simp [alookup, hp]
      · have hne : ¬ (k = k') := fun h => hk h.symm
        have hp' : ¬ (p.1 = k') := by rw [hp]; exact hne
        simp [alookup, hp, hp', hk, hne, ih]
    · simp only [List.map_cons, if_neg hp, alookup]
      by_cases hpk' : p.1 = k'
      · have hk : ¬ (k' = k) := fun h => hp (by rw [hpk', h])
        simp [alookup, hpk', hp, if_neg hk]
      · simp only [if_neg hpk', ih, if_neg hp]

theorem alookup_aset (a : AMap) (k : Nat) (v : List Nat) (k' : Nat) :
    alookup (aset a k v) k' = if k' = k then some v else alookup a k' := by
  unfold aset
  by_cases hs : (alookup a k).isSome
  · rw [if_pos hs, alookup_overwrite, if_pos hs]
  · rw [if_neg hs, alookup_append]
    have hn : alookup a k = none := by
      cases h : alookup a k with
      | none => rfl
      | some w => rw [h] at hs; simp at hs
    by_cases hk : k' = k
    · subst hk
      simp [hn, alookup]
    · have hne : ¬ (k = k') := fun h => hk h.symm
      cases h : alookup a k' with
      | none => simp [alookup, hk, hne]
      | some w => simp [alookup, hk, hne]

theorem alookup_aset_self (a : AMap) (k : Nat) (v : List Nat) :
    alookup (aset a k v) k = some v := by
  rw [alookup_aset]; simp

theorem alookup_aset_ne (a : AMap) (k : Nat) (v : List Nat) (k' : Nat)
    (h : k' ≠ k) : alookup (aset a k v) k' = alookup a k' := by
  rw [alookup_aset]; simp [h]

theorem mem_setAdd (l : List Nat) (x y : Nat) :
    y ∈ setAdd l x ↔ y = x ∨ y ∈ l := by
  unfold setAdd
  by_cases h : x ∈ l
  · simp only [if_pos h]
    constructor
    · exact Or.inr
    · rintro (rfl | hy)
      · exact h
      · exact hy
  · simp [if_neg h]

theorem nodup_setAdd (l : List Nat) (x : Nat) (h : l.Nodup) :
    (setAdd l x).Nodup := by
  unfold setAdd
  by_cases hx : x ∈ l
  · simpa [hx]
  · rw [if_neg hx]
    exact List.nodup_cons.mpr ⟨hx, h⟩

theorem alookup_mem {a : AMap} {k : Nat} {v : List Nat}
    (h : alookup a k = some v) : (k, v) ∈ a := by
  induction a with
  | nil => simp [alookup] at h
  | cons p rest ih =>
    by_cases hp : p.1 = k
    · simp only [alookup, if_pos hp] at h
      cases h
      cases p with
      | mk p1 p2 =>
        simp only at hp
        rw [hp]
        exact List.mem_cons_self _ _
    · simp only [alookup, if_neg hp] at h
      exact List.mem_cons_of_mem _ (ih h)

theorem valsNodup_lookup {a : AMap} {k : Nat} {v : List Nat}
    (hw : valsNodup a) (h : alookup a k = some v) : v.Nodup :=
  hw _ (alookup_mem h)

theorem valsNodup_aset {a : AMap} {k : Nat} {v : List Nat}
    (hw : valsNodup a) (hv : v.Nodup) : valsNodup (aset a k v) := by
  intro p hp
  unfold aset at hp
  by_cases hs : (alookup a k).isSome
  · simp only [if_pos hs] at hp
    rcases List.mem_map.mp hp with ⟨q, hq, hpq⟩
    by_cases h1 : q.1 = k
    · rw [if_pos h1] at hpq; rw [← hpq]; exact hv
    · rw [if_neg h1] at hpq; rw [← hpq]; exact hw _ hq
  · simp only [if_neg hs, List.mem_append] at hp
    rcases hp with hp | hp
    · exact hw _ hp
    · simp only [List.mem_singleton] at hp
      rw [hp]; exact hv

theorem pyIndex_some {l : List Nat} {v : Nat} {i : Nat}
    (h : pyIndex l v = some i) : i < l.length ∧ l.getD i 0 = v := by
  induction l generalizing i with
  | nil => simp [pyIndex] at h
  | cons x xs ih =>
    by_cases hx : x = v
    · simp only [pyIndex, if_pos hx] at h
      cases h
      simp [hx]
    · simp only [pyIndex, if_neg hx] at h
      cases hrec : pyIndex xs v with
      | none => rw [hrec] at h; simp at h
      | some j =>
        rw [hrec] at h
        simp only [Option.map_some'] at h
        cases h
        rcases ih hrec with ⟨h1, h2⟩
        refine ⟨by simpa using Nat.succ_lt_succ h1, ?_⟩
        simpa using h2

theorem pyIndex_none {l : List Nat} {v : Nat} :
    pyIndex l v = none ↔ v ∉ l := by
  induction l with
  | nil => simp [pyIndex]
  | cons x xs ih =>
    by_cases hx : x = v
    · simp [pyIndex, hx]
    · simp only [pyIndex, if_neg hx, List.mem_cons]
      cases hrec : pyIndex xs v with
      | none => simpa [hrec, Ne.symm hx] using ih.mp hrec
      | some j =>
        simp only [hrec, Option.map_some']
        constructor
        · intro h; simp at h
        · intro h
          push_neg at h
          exact absurd hrec (by rw [ih.mpr h.2]; simp)

/-! ## `ClusterMembership`: the set-based representation -/

/-- The state of `ClusterMembership`: the two forward maps, the two inverse
maps and the two capacity configuration values that its operations read. -/
structure ClusterMembership where
  clusters_per_row : Nat
  clusters_per_col : Nat
  row_is_member_of : AMap
  column_is_member_of : AMap
  cluster_row_members : AMap
  cluster_column_members : AMap
deriving Repr, DecidableEq

namespace ClusterMembership

/-- `clusters_for_row`: `self.__row_is_member_of.get(row_name, set())`. -/
def clusters_for_row (m : ClusterMembership) (row : Nat) : List Nat :=
  (alookup m.row_is_member_of row).getD []

/-- `num_clusters_for_row`. -/
def num_clusters_for_row (m : ClusterMembership) (row : Nat) : Nat :=
  (m.clusters_for_row row).length

/-- `clusters_for_column`: `self.__column_is_member_of.get(column_name, set())`. -/
def clusters_for_column (m : ClusterMembership) (col : Nat) : List Nat :=
  (alookup m.column_is_member_of col).getD []

/-- `num_clusters_for_column`. -/
def num_clusters_for_column (m : ClusterMembership) (col : Nat) : Nat :=
  (m.clusters_for_column col).length

/-- `rows_for_cluster`: `self.__cluster_row_members.get(cluster, set())`. -/
def rows_for_cluster (m : ClusterMembership) (cluster : Nat) : List Nat :=
  (alookup m.cluster_row_members cluster).getD []

/-- `columns_for_cluster`: `self.__cluster_column_members.get(cluster, set())`. -/
def columns_for_cluster (m : ClusterMembership) (cluster : Nat) : List Nat :=
  (alookup m.cluster_column_members cluster).getD []

/-- `is_row_in_cluster(row, cluster)`: `row in self.rows_for_cluster(cluster)`. -/
def is_row_in_cluster (m : ClusterMembership) (row cluster : Nat) : Prop :=
  row ∈ m.rows_for_cluster cluster

instance (m : ClusterMembership) (row cluster : Nat) :
    Decidable (m.is_row_in_cluster row cluster) := by
  unfold is_row_in_cluster; infer_instance

/-- `is_column_in_cluster(col, cluster)`. -/
def is_column_in_cluster (m : ClusterMembership) (col cluster : Nat) : Prop :=
  col ∈ m.columns_for_cluster cluster

instance (m : ClusterMembership) (col cluster : Nat) :
    Decidable (m.is_column_in_cluster col cluster) := by
  unfold is_column_in_cluster; infer_instance

/-- `__add_cluster_to_row`: the unchecked add used by `postadjust`; puts the
row and cluster keys in place when missing, then inserts the cluster into the
row's set and the row into the cluster's set. -/
def addClusterToRowUnchecked (m : ClusterMembership) (row cluster : Nat) :
    ClusterMembership :=
  let rimo := if (alookup m.row_is_member_of row).isSome then
      m.row_is_member_of else aset m.row_is_member_of row []
  let crm := if (alookup m.cluster_row_members cluster).isSome then
      m.cluster_row_members else aset m.cluster_row_members cluster []
  let clusters := (alookup rimo row).getD []
  let rows := (alookup crm cluster).getD []
  { m with row_is_member_of := aset rimo row (setAdd clusters cluster),
           cluster_row_members := aset crm cluster (setAdd rows row) }

/-- `add_cluster_to_row`: the checked add; raises when the row is at (or
beyond) the `clusters_per_row` capacity. -/
def add_cluster_to_row (m : ClusterMembership) (row cluster : Nat) :
    Except ClusterMembership ClusterMembership :=
  if m.num_clusters_for_row row ≥ m.clusters_per_row then .error m
  else .ok (m.addClusterToRowUnchecked row cluster)

/-- `__add_cluster_to_column`: the unchecked column add. -/
def addClusterToColumnUnchecked (m : ClusterMembership) (col cluster : Nat) :
    ClusterMembership :=
  let cimo := if (alookup m.column_is_member_of col).isSome then
      m.column_is_member_of else aset m.column_is_member_of col []
  let ccm := if (alookup m.cluster_column_members cluster).isSome then
      m.cluster_column_members else aset m.cluster_column_members cluster []
  let clusters := (alookup cimo col).getD []
  let cols := (alookup ccm cluster).getD []
  { m with column_is_member_of := aset cimo col (setAdd clusters cluster),
           cluster_column_members := aset ccm cluster (setAdd cols col) }

/-- `add_cluster_to_column`: the checked column add. -/
def add_cluster_to_column (m : ClusterMembership) (col cluster : Nat) :
    Except ClusterMembership ClusterMembership :=
  if m.num_clusters_for_column col ≥ m.clusters_per_col then .error m
  else .ok (m.addClusterToColumnUnchecked col cluster)

/-- `remove_cluster_from_row`: removes the cluster from the row's set (a
`KeyError` escapes when it is absent, with the state untouched), then removes
the row from the cluster's set (a `KeyError` there leaves the first removal
visible).  Each `if`-block is skipped when its key is absent. -/
def remove_cluster_from_row (m : ClusterMembership) (row cluster : Nat) :
    Except ClusterMembership ClusterMembership :=
  let step1 : Except ClusterMembership ClusterMembership :=
    match alookup m.row_is_member_of row with
    | some clusters =>
        if cluster ∈ clusters then
          .ok { m with row_is_member_of := aset m.row_is_member_of row (clusters.erase cluster) }
        else .error m
    | none => .ok m
  match step1 with
  | .error s => .error s
  | .ok m1 =>
    match alookup m1.cluster_row_members cluster with
    | some rows =>
        if row ∈ rows then
          .ok { m1 with cluster_row_members := aset m1.cluster_row_members cluster (rows.erase row) }
        else .error m1
    | none => .ok m1

/-- `remove_cluster_from_column`: same as the row version, but the source
mutates the inverse map first, then the forward map. -/
def remove_cluster_from_column (m : ClusterMembership) (col cluster : Nat) :
    Except ClusterMembership ClusterMembership :=
  let step1 : Except ClusterMembership ClusterMembership :=
    match alookup m.cluster_column_members cluster with
    | some cols =>
        if col ∈ cols then
          .ok { m with cluster_column_members := aset m.cluster_column_members cluster (cols.erase col) }
        else .error m
    | none => .ok m
  match step1 with
  | .error s => .error s
  | .ok m1 =>
    match alookup m1.column_is_member_of col with
    | some clusters =>
        if cluster ∈ clusters then
          .ok { m1 with column_is_member_of := aset m1.column_is_member_of col (clusters.erase cluster) }
        else .error m1
    | none => .ok m1

/-- `replace_row_cluster(row, cluster, replacement)`: guarded remove-then-add;
no-op when `cluster == replacement` or the row is already recorded in the
replacement cluster's inverse entry. -/
def replace_row_cluster (m : ClusterMembership) (row cluster replacement : Nat) :
    Except ClusterMembership ClusterMembership :=
  if cluster ≠ replacement ∧ ¬ m.is_row_in_cluster row replacement then
    match m.remove_cluster_from_row row cluster with
    | .error s => .error s
    | .ok m1 => m1.add_cluster_to_row row replacement
  else .ok m

/-- `replace_column_cluster(column, cluster, replacement)`. -/
def replace_column_cluster (m : ClusterMembership) (col cluster replacement : Nat) :
    Except ClusterMembership ClusterMembership :=
  if replacement ≠ cluster ∧ ¬ m.is_column_in_cluster col replacement then
    match m.remove_cluster_from_column col cluster with
    | .error s => .error s
    | .ok m1 => m1.add_cluster_to_column col replacement
  else .ok m

end ClusterMembership

/-- `create_cluster_to_names_map` (constructor helper of `ClusterMembership`):
derive the inverse map from a forward map, adding each name to the set of
every cluster it lists. -/
def create_cluster_to_names_map (fwd : AMap) : AMap :=
  fwd.foldl
    (fun acc p =>
      p.2.foldl
        (fun acc2 c => aset acc2 c (setAdd ((alookup acc2 c).getD []) p.1))
        acc)
    []

namespace ClusterMembership

/-- The `ClusterMembership.__init__` constructor: forward maps converted to
sets (`set(clusters)`, modelled by `dedup`), inverse maps derived by
`create_cluster_to_names_map`. -/
def init (cpr cpc : Nat) (rimo cimo : AMap) : ClusterMembership :=
  let rimo' := rimo.map (fun p => (p.1, p.2.dedup))
  let cimo' := cimo.map (fun p => (p.1, p.2.dedup))
  { clusters_per_row := cpr
    clusters_per_col := cpc
    row_is_member_of := rimo'
    column_is_member_of := cimo'
    cluster_row_members := create_cluster_to_names_map rimo'
    cluster_column_members := create_cluster_to_names_map cimo' }

/-- `store_checkpoint_data` followed by `restore_from_checkpoint`: the shelf
holds exactly the two forward maps, and restoring runs the constructor on
them. -/
def checkpointRoundTrip (m : ClusterMembership) : ClusterMembership :=
  init m.clusters_per_row m.clusters_per_col
    m.row_is_member_of m.column_is_member_of

end ClusterMembership

/-! ## `OrigMembership`: the fixed-slot representation -/

/-- The state of `OrigMembership`: slot-array forward maps (`0` marks a free
slot) and the two derived inverse maps, plus the two capacity values. -/
structure OrigMembership where
  clusters_per_row : Nat
  clusters_per_col : Nat
  row_memb : AMap
  col_memb : AMap
  cluster_rows : AMap
  cluster_cols : AMap
deriving Repr, DecidableEq

/-- `cluster2names_map` (constructor helper of `OrigMembership`): derive the
inverse map from a slot-array forward map, skipping the `0` free-slot
markers. -/
def cluster2names_map (fwd : AMap) : AMap :=
  fwd.foldl
    (fun acc p =>
      p.2.foldl
        (fun acc2 c =>
          if 0 < c then aset acc2 c (setAdd ((alookup acc2 c).getD []) p.1)
          else acc2)
        acc)
    []

/-- `tmp = l[:n]; tmp.extend([0] * (n - len(tmp)))`: truncate the slot array
to `n` entries and pad with free slots up to length `n`. -/
def padTruncate (l : List Nat) (n : Nat) : List Nat :=
  l.take n ++ List.replicate (n - (l.take n).length) 0

namespace OrigMembership

/-- `clusters_for_row`: `{m for m in self.row_memb[row_name] if m > 0}`; the
indexing raises a `KeyError` for an unknown row, modelled by `none`. -/
def clusters_for_row (m : OrigMembership) (row : Nat) : Option (List Nat) :=
  (alookup m.row_memb row).map (fun arr => (arr.filter (fun x => 0 < x)).dedup)

/-- `clusters_for_column`: same for columns. -/
def clusters_for_column (m : OrigMembership) (col : Nat) : Option (List Nat) :=
  (alookup m.col_memb col).map (fun arr => (arr.filter (fun x => 0 < x)).dedup)

/-- `num_clusters_for_row` (meaningful only when the row exists). -/
def num_clusters_for_row (m : OrigMembership) (row : Nat) : Nat :=
  ((m.clusters_for_row row).getD []).length

/-- `num_clusters_for_column`. -/
def num_clusters_for_column (m : OrigMembership) (col : Nat) : Nat :=
  ((m.clusters_for_column col).getD []).length

/-- `rows_for_cluster`: `self.cluster_rows.get(cluster, set())`. -/
def rows_for_cluster (m : OrigMembership) (cluster : Nat) : List Nat :=
  (alookup m.cluster_rows cluster).getD []

/-- `columns_for_cluster`: `self.cluster_cols.get(cluster, set())`. -/
def columns_for_cluster (m : OrigMembership) (cluster : Nat) : List Nat :=
  (alookup m.cluster_cols cluster).getD []

/-- `first_free_slot_for_row`: `self.row_memb[row].index(0)`; `none` models
both the `KeyError` for a missing row and the `ValueError` when the array has
no free slot (the callers catch both alike). -/
def first_free_slot_for_row (m : OrigMembership) (row : Nat) : Option Nat :=
  (alookup m.row_memb row).bind (fun arr => pyIndex arr 0)

/-- `first_free_slot_for_column`. -/
def first_free_slot_for_column (m : OrigMembership) (col : Nat) : Option Nat :=
  (alookup m.col_memb col).bind (fun arr => pyIndex arr 0)

/-- `add_reverse` inside `add_cluster_to_row`. -/
def addReverseRow (m : OrigMembership) (cluster row : Nat) : OrigMembership :=
  { m with cluster_rows := aset m.cluster_rows cluster (setAdd ((alookup m.cluster_rows cluster).getD []) row) }

/-- `add_reverse` inside `add_cluster_to_column`. -/
def addReverseCol (m : OrigMembership) (cluster col : Nat) : OrigMembership :=
  { m with cluster_cols := aset m.cluster_cols cluster (setAdd ((alookup m.cluster_cols cluster).getD []) col) }

/-- `add_cluster_to_row(row, cluster, force)`: write the cluster into the
first free slot; when no slot is free (or the row is unknown, both landing in
the bare `except`) either raise — `force=False` — or append a fresh slot —
`force=True`.  The forced append on an unknown row re-raises the `KeyError`,
so it is an error in both cases. -/
def add_cluster_to_row (m : OrigMembership) (row cluster : Nat) (force : Bool) :
    Except OrigMembership OrigMembership :=
  match alookup m.row_memb row with
  | none => .error m
  | some arr =>
    match pyIndex arr 0 with
    | some idx =>
        .ok (addReverseRow { m with row_memb := aset m.row_memb row (arr.set idx cluster) } cluster row)
    | none =>
        if force then
          .ok (addReverseRow { m with row_memb := aset m.row_memb row (arr ++ [cluster]) } cluster row)
        else .error m

/-- `add_cluster_to_column(col, cluster, force)`. -/
def add_cluster_to_column (m : OrigMembership) (col cluster : Nat) (force : Bool) :
    Except OrigMembership OrigMembership :=
  match alookup m.col_memb col with
  | none => .error m
  | some arr =>
    match pyIndex arr 0 with
    | some idx =>
        .ok (addReverseCol { m with col_memb := aset m.col_memb col (arr.set idx cluster) } cluster col)
    | none =>
        if force then
          .ok (addReverseCol { m with col_memb := aset m.col_memb col (arr ++ [cluster]) } cluster col)
        else .error m

/-- `replace_row_cluster(row, index, new)`: note the second argument is a slot
index, not a cluster id.  Guarded only by `new not in clusters_for_row(row)`;
overwrites the slot, removes the reverse edge of the old value when it no
longer occurs in the array (`KeyError` when `old` has no inverse entry or the
row is not recorded there — the forward write stays visible), then records
the reverse edge of `new`. -/
def replace_row_cluster (m : OrigMembership) (row idx new : Nat) :
    Except OrigMembership OrigMembership :=
  match alookup m.row_memb row with
  | none => .error m
  | some arr =>
    if new ∈ arr.filter (fun x => 0 < x) then .ok m
    else
      if idx < arr.length then
        let old := arr.getD idx 0
        let arr1 := arr.set idx new
        let m1 := { m with row_memb := aset m.row_memb row arr1 }
        let step2 : Except OrigMembership OrigMembership :=
          if old ∈ arr1 then .ok m1
          else
            match alookup m1.cluster_rows old with
            | none => .error m1
            | some rows =>
                if row ∈ rows then
                  .ok { m1 with cluster_rows := aset m1.cluster_rows old (rows.erase row) }
                else .error m1
        match step2 with
        | .error s => .error s
        | .ok m2 =>
          let cr := if (alookup m2.cluster_rows new).isSome then m2.cluster_rows
                    else aset m2.cluster_rows new []
          .ok { m2 with cluster_rows := aset cr new (setAdd ((alookup cr new).getD []) row) }
      else .error m

/-- `replace_column_cluster(col, old, new)`: unlike the row version this takes
the old cluster id, looks up its first slot (`ValueError` when absent) and
performs the replacement with no already-held guard at all. -/
def replace_column_cluster (m : OrigMembership) (col old new : Nat) :
    Except OrigMembership OrigMembership :=
  match alookup m.col_memb col with
  | none => .error m
  | some arr =>
    match pyIndex arr old with
    | none => .error m
    | some idx =>
      let arr1 := arr.set idx new
      let m1 := { m with col_memb := aset m.col_memb col arr1 }
      let step2 : Except OrigMembership OrigMembership :=
        if old ∈ arr1 then .ok m1
        else
          match alookup m1.cluster_cols old with
          | none => .error m1
          | some cols =>
              if col ∈ cols then
                .ok { m1 with cluster_cols := aset m1.cluster_cols old (cols.erase col) }
              else .error m1
      match step2 with
      | .error s => .error s
      | .ok m2 =>
        let cc := if (alookup m2.cluster_cols new).isSome then m2.cluster_cols
                  else aset m2.cluster_cols new []
        .ok { m2 with cluster_cols := aset cc new (setAdd ((alookup cc new).getD []) col) }

/-- The `OrigMembership.__init__` constructor: each forward value is truncated
to the configured width and padded with `0`s, and the inverse maps are derived
by `cluster2names_map`. -/
def init (cpr cpc : Nat) (rimo cimo : AMap) : OrigMembership :=
  let rm := rimo.map (fun p => (p.1, padTruncate p.2 cpr))
  let cm := cimo.map (fun p => (p.1, padTruncate p.2 cpc))
  { clusters_per_row := cpr
    clusters_per_col := cpc
    row_memb := rm
    col_memb := cm
    cluster_rows := cluster2names_map rm
    cluster_cols := cluster2names_map cm }

/-- `store_checkpoint_data` followed by `restore_from_checkpoint`: the shelf
holds the two slot-array forward maps and restoring runs the constructor on
them. -/
def checkpointRoundTrip (m : OrigMembership) : OrigMembership :=
  init m.clusters_per_row m.clusters_per_col m.row_memb m.col_memb

end OrigMembership

/-! ## Scores

Scores are modelled as rationals; the modelled code only reads, subtracts and
compares them.  A score row (one row of `rd_scores` / `cd_scores` /
`rowscores`) is a `List ℚ` indexed by cluster-id minus one. -/

/-- `values[c - 1]` with numpy index semantics: a negative index wraps around
from the end (reachable when a slot array holds the free marker `0`, making
the index `-1`).  Out-of-range reads return `0`; the modelled inputs stay in
range. -/
def npIdx (l : List ℚ) (i : Int) : ℚ :=
  if i < 0 then l.getD ((l.length : Int) + i).toNat 0
  else l.getD i.toNat 0

/-- `numpy.argmax`: index of the first occurrence of the maximum. -/
def npArgmaxAux : List ℚ → Nat → Nat → ℚ → Nat
  | [], _, best, _ => best
  | x :: xs, i, best, bv =>
      if x > bv then npArgmaxAux xs (i + 1) i x
      else npArgmaxAux xs (i + 1) best bv

/-- `numpy.argmax` over a list (0 on the empty list, unreachable in the
modelled calls). -/
def npArgmax : List ℚ → Nat
  | [] => 0
  | x :: xs => npArgmaxAux xs 1 0 x

/-- One insertion step of `sorted(pairs, reverse=True)` on `(delta, cluster)`
tuples: descending lexicographic order. -/
def insertDesc (x : ℚ × Nat) : List (ℚ × Nat) → List (ℚ × Nat)
  | [] => [x]
  | y :: ys =>
      if y.1 < x.1 ∨ (x.1 = y.1 ∧ y.2 ≤ x.2) then x :: y :: ys
      else y :: insertDesc x ys

/-- `sorted(pairs, reverse=True)`. -/
def sortDesc (l : List (ℚ × Nat)) : List (ℚ × Nat) :=
  l.foldr insertDesc []

/-- `sys.float_info.min`, the smallest positive normalised double. -/
def float_info_min : ℚ := 1 / 2 ^ 1022

namespace ClusterMembership

/-- `replace_delta_row_member(row, cluster, rd_scores)`: sort the pairs
(candidate score − held score, held cluster) descending; when the best delta
is positive, replace that held cluster by the candidate and return it,
otherwise return 0 and leave the state alone.  `self.__row_is_member_of[row]`
raises for an unknown row. -/
def replace_delta_row_member (m : ClusterMembership) (row cluster : Nat)
    (scores : List ℚ) : Except ClusterMembership (ClusterMembership × Nat) :=
  match alookup m.row_is_member_of row with
  | none => .error m
  | some current_clusters =>
    let compval := npIdx scores ((cluster : Int) - 1)
    let deltas := sortDesc (current_clusters.map
      (fun (c : Nat) => (compval - npIdx scores ((c : Int) - 1), c)))
    match deltas with
    | [] => .ok (m, 0)
    | (d, c0) :: _ =>
        if 0 < d then
          match m.replace_row_cluster row c0 cluster with
          | .error s => .error s
          | .ok m1 => .ok (m1, c0)
        else .ok (m, 0)

/-- `replace_delta_column_member(col, cluster, cd_scores)`. -/
def replace_delta_column_member (m : ClusterMembership) (col cluster : Nat)
    (scores : List ℚ) : Except ClusterMembership (ClusterMembership × Nat) :=
  match alookup m.column_is_member_of col with
  | none => .error m
  | some current_clusters =>
    let compval := npIdx scores ((cluster : Int) - 1)
    let deltas := sortDesc (current_clusters.map
      (fun (c : Nat) => (compval - npIdx scores ((c : Int) - 1), c)))
    match deltas with
    | [] => .ok (m, 0)
    | (d, c0) :: _ =>
        if 0 < d then
          match m.replace_column_cluster col c0 cluster with
          | .error s => .error s
          | .ok m1 => .ok (m1, c0)
        else .ok (m, 0)

/-- `clusters_not_in_row(row, clusters)`: order-preserving filter; raises for
an unknown row (`self.__row_is_member_of[row]`). -/
def clusters_not_in_row (m : ClusterMembership) (row : Nat)
    (clusters : List Nat) : Option (List Nat) :=
  (alookup m.row_is_member_of row).map
    (fun held => clusters.filter (fun c => c ∉ held))

/-- `clusters_not_in_column(column, clusters)`. -/
def clusters_not_in_column (m : ClusterMembership) (col : Nat)
    (clusters : List Nat) : Option (List Nat) :=
  (alookup m.column_is_member_of col).map
    (fun held => clusters.filter (fun c => c ∉ held))

end ClusterMembership

/-- The body of one change attempt in `update_for_rows` (the inner
`for _ in range(max_changes)` iteration, entered when the Bernoulli gate
passed): with candidates left, either a checked add of the first candidate
when the row is below capacity (consuming it), or the delta-replacement with
the first candidate (consuming it only when a replacement happened).
Returns the new state together with the remaining candidate list. -/
def update_for_rows_change (m : ClusterMembership) (row : Nat)
    (clusters : List Nat) (scores : List ℚ) :
    Except ClusterMembership (ClusterMembership × List Nat) :=
  if 0 < clusters.length then
    if m.num_clusters_for_row row < m.clusters_per_row then
      match m.add_cluster_to_row row (clusters.headD 0) with
      | .error s => .error s
      | .ok m1 => .ok (m1, clusters.tail)
    else
      match m.replace_delta_row_member row (clusters.headD 0) scores with
      | .error s => .error s
      | .ok (m1, old) => .ok (m1, if old ≠ 0 then clusters.tail else clusters)
  else .ok (m, clusters)

/-- The body of one change attempt in `update_for_cols`. -/
def update_for_cols_change (m : ClusterMembership) (col : Nat)
    (clusters : List Nat) (scores : List ℚ) :
    Except ClusterMembership (ClusterMembership × List Nat) :=
  if 0 < clusters.length then
    if m.num_clusters_for_column col < m.clusters_per_col then
      match m.add_cluster_to_column col (clusters.headD 0) with
      | .error s => .error s
      | .ok m1 => .ok (m1, clusters.tail)
    else
      match m.replace_delta_column_member col (clusters.headD 0) scores with
      | .error s => .error s
      | .ok (m1, old) => .ok (m1, if old ≠ 0 then clusters.tail else clusters)
  else .ok (m, clusters)

/-- `replace_delta_row_member2(membership, row, rm, rd_scores)`: numpy
pairwise deltas `scores[rm - 1] - scores[row_memb[row] - 1]` (candidate i
against slot i); when any delta is nonzero — positive or not — replace the
slot at the argmax index by the candidate at that index. -/
def replace_delta_row_member2 (m : OrigMembership) (row : Nat)
    (rm : List Nat) (scores : List ℚ) : Except OrigMembership OrigMembership :=
  match alookup m.row_memb row with
  | none => .error m
  | some arr =>
    let deltas := (rm.zip arr).map
      (fun p => npIdx scores ((p.1 : Int) - 1) - npIdx scores ((p.2 : Int) - 1))
    if deltas.any (fun d => d ≠ 0) then
      let maxidx := npArgmax deltas
      m.replace_row_cluster row maxidx (rm.getD maxidx 0)
    else .ok m

/-- `replace_delta_column_member2(membership, col, cluster, cd_scores)`: same
shape as `ClusterMembership.replace_delta_column_member`, acting on an
`OrigMembership`. -/
def replace_delta_column_member2 (m : OrigMembership) (col cluster : Nat)
    (scores : List ℚ) : Except OrigMembership (OrigMembership × Nat) :=
  match m.clusters_for_column col with
  | none => .error m
  | some current_clusters =>
    let compval := npIdx scores ((cluster : Int) - 1)
    let deltas := sortDesc (current_clusters.map
      (fun (c : Nat) => (compval - npIdx scores ((c : Int) - 1), c)))
    match deltas with
    | [] => .ok (m, 0)
    | (d, c0) :: _ =>
        if 0 < d then
          match m.replace_column_cluster col c0 cluster with
          | .error s => .error s
          | .ok m1 => .ok (m1, c0)
        else .ok (m, 0)

/-- The body of one change attempt in `update_for_rows2` (entered when the
gate passed and `len(clusters) > 0`): the `try` block looks up the first free
slot, takes the candidate at that *slot index* from the cluster-number-sorted
candidate list and adds it only when not already held; any exception —
missing free slot, slot index beyond the candidate list, or a raising add —
falls into the `except` branch running `replace_delta_row_member2`. -/
def update_for_rows2_change (m : OrigMembership) (row : Nat)
    (clusters : List Nat) (scores : List ℚ) :
    Except OrigMembership OrigMembership :=
  if 0 < clusters.length then
    match m.first_free_slot_for_row row with
    | some free_slot =>
        if free_slot < clusters.length then
          let take_cluster := clusters.getD free_slot 0
          if take_cluster ∈ (m.clusters_for_row row).getD [] then .ok m
          else
            match m.add_cluster_to_row row take_cluster false with
            | .ok m1 => .ok m1
            | .error _ => replace_delta_row_member2 m row clusters scores
        else replace_delta_row_member2 m row clusters scores
    | none => replace_delta_row_member2 m row clusters scores
  else .ok m

/-- The body of one change attempt in `update_for_cols2`: the `try` block
finds the free slot and the candidate, but its add statement reads the
undefined name `row` (`membership.add_cluster_to_column(row, take_cluster)`),
so reaching it raises `NameError`, which the bare `except` turns into the
delta-replacement with `clusters[0]`.  The add of the `try` block can never
happen. -/
def update_for_cols2_change (m : OrigMembership) (col : Nat)
    (clusters : List Nat) (scores : List ℚ) :
    Except OrigMembership OrigMembership :=
  if 0 < clusters.length then
    match m.first_free_slot_for_column col with
    | some free_slot =>
        if free_slot < clusters.length then
          let take_cluster := clusters.getD free_slot 0
          if take_cluster ∈ (m.clusters_for_column col).getD [] then .ok m
          else
            match replace_delta_column_member2 m col (clusters.headD 0) scores with
            | .error s => .error s
            | .ok (m1, _) => .ok m1
        else
          match replace_delta_column_member2 m col (clusters.headD 0) scores with
          | .error s => .error s
          | .ok (m1, _) => .ok m1
    | none =>
        match replace_delta_column_member2 m col (clusters.headD 0) scores with
        | .error s => .error s
        | .ok (m1, _) => .ok m1
  else .ok m

/-- The claim's selection rule, stated from the specification's words: "assign
it the best unheld candidate cluster" — the candidate, among those not
currently held, whose score is maximal (`none` when no candidate is unheld).
Used only to compare the update steps against the claim. -/
def bestScoringUnheldCandidate (scores : List ℚ) (held clusters : List Nat) :
    Option Nat :=
  let unheld := clusters.filter (fun c => c ∉ held)
  match unheld with
  | [] => none
  | c :: cs =>
      some (cs.foldl
        (fun (best c2 : Nat) =>
          if npIdx scores ((c2 : Int) - 1) > npIdx scores ((best : Int) - 1)
          then c2 else best)
        c)

/-! ## Density scores -/

/-- The outcome of `get_rr_scores` / `get_cc_scores`: either the uniform
fallback vector, or the kernel-density branch.  The density branch calls
`util.density` (the `util` module is not part of the sources here); the
constructor records the member scores the call would receive, which is all
the claims about these functions consume. -/
inductive DensityResult
  | uniform (scores : List ℚ)
  | densityBranch (cluster_scores : List (Option ℚ))
deriving Repr, DecidableEq

/-- `get_rr_scores(membership, rowscores, bandwidth, cluster)`.  `kscores` is
the cluster's raw score column (`none` marking a non-finite float);
`cluster_rows`/`cluster_columns` are the cluster's current members and
`member_scores` the rows' scores restricted to the members
(`kscores[row_indexes(cluster_rows)]`).  When the cluster has no row members,
no finite scores or no column members, every row gets the uniform score
`1/num_rows`. -/
def get_rr_scores (cluster_rows cluster_columns : List Nat)
    (kscores : List (Option ℚ)) (member_scores : List (Option ℚ)) :
    DensityResult :=
  let kscores_finite := kscores.filterMap id
  if cluster_rows.length = 0 ∨ kscores_finite.length = 0 ∨
      cluster_columns.length = 0 then
    .uniform (List.replicate kscores.length (1 / (kscores.length : ℚ)))
  else
    .densityBranch member_scores

/-- `get_cc_scores(membership, scores, bandwidth, cluster)`: identical shape,
except that the fallback also triggers with exactly one column member
(`len(cluster_columns) <= 1`). -/
def get_cc_scores (cluster_rows cluster_columns : List Nat)
    (kscores : List (Option ℚ)) (member_scores : List (Option ℚ)) :
    DensityResult :=
  let kscores_finite := kscores.filterMap id
  if cluster_rows.length = 0 ∨ kscores_finite.length = 0 ∨
      cluster_columns.length ≤ 1 then
    .uniform (List.replicate kscores.length (1 / (kscores.length : ℚ)))
  else
    .densityBranch member_scores

/-! ## Post-adjustment -/

/-- `max_row_in_column` inside `adjust_cluster2` (and, identically, inside
`ClusterMembership.adjust_cluster`): scan the submatrix column of the
remaining candidates with `max_score` initialised to `sys.float_info.min`,
updating on a strict `>`; returns the index of the selected row in the
candidate submatrix. -/
def maxRowAux : List ℚ → Nat → Nat → ℚ → Nat
  | [], _, best, _ => best
  | v :: vs, i, best, bs =>
      if v > bs then maxRowAux vs (i + 1) i v
      else maxRowAux vs (i + 1) best bs

/-- `max_row_in_column(matrix, column)` restricted to the candidate rows `wh`:
the returned value is the index into `wh` of the chosen row
(`sm.row_names[max_row]`). -/
def max_row_in_column (sm_values : List ℚ) : Nat :=
  maxRowAux sm_values 0 0 float_info_min

/-! ## Supporting lemmas -/

theorem mem_set_self {l : List Nat} {idx : Nat} (v : Nat)
    (h : idx < l.length) : v ∈ l.set idx v := by
  induction l generalizing idx with
  | nil => simp at h
  | cons x xs ih =>
    cases idx with
    | zero => simp [List.set]
    | succ n =>
      simp only [List.set, List.mem_cons]
      exact Or.inr (ih (by simpa using h))

theorem mem_set_elim {l : List Nat} {idx v c : Nat}
    (h : c ∈ l.set idx v) : c = v ∨ c ∈ l := by
  induction l generalizing idx with
  | nil => simp [List.set] at h
  | cons x xs ih =>
    cases idx with
    | zero =>
      simp only [List.set, List.mem_cons] at h
      rcases h with h | h
      · exact Or.inl h
      · exact Or.inr (List.mem_cons_of_mem _ h)
    | succ n =>
      simp only [List.set, List.mem_cons] at h
      rcases h with h | h
      · exact Or.inr (by simp [h])
      · rcases ih h with h | h
        · exact Or.inl h
        · exact Or.inr (List.mem_cons_of_mem _ h)

theorem mem_set_of_ne_getD {l : List Nat} {idx v c : Nat}
    (hc : c ∈ l) (hne : c ≠ l.getD idx 0) : c ∈ l.set idx v := by
  induction l generalizing idx with
  | nil => simp at hc
  | cons x xs ih =>
    cases idx with
    | zero =>
      simp only [List.getD] at hne
      simp only [List.set, List.mem_cons]
      rcases List.mem_cons.mp hc with h | h
      · exact absurd (by simpa using h) (by simpa using hne)
      · exact Or.inr h
    | succ n =>
      simp only [List.set, List.mem_cons]
      rcases List.mem_cons.mp hc with h | h
      · exact Or.inl h
      · exact Or.inr (ih h (by simpa using hne))

theorem set_getD_self (l : List Nat) (idx : Nat) :
    l.set idx (l.getD idx 0) = l := by
  induction l generalizing idx with
  | nil => simp
  | cons x xs ih =>
    cases idx with
    | zero => simp [List.set]
    | succ n =>
      simp only [List.set, List.cons.injEq, true_and]
      simpa [List.getD] using ih n

theorem mem_insertDesc (x y : ℚ × Nat) (l : List (ℚ × Nat)) :
    y ∈ insertDesc x l ↔ y = x ∨ y ∈ l := by
  induction l with
  | nil => simp [insertDesc]
  | cons z zs ih =>
    unfold insertDesc
    by_cases h : z.1 < x.1 ∨ (x.1 = z.1 ∧ z.2 ≤ x.2)
    · simp [h]
    · simp only [if_neg h, List.mem_cons, ih]
      tauto

theorem mem_sortDesc (l : List (ℚ × Nat)) (y : ℚ × Nat) :
    y ∈ sortDesc l ↔ y ∈ l := by
  induction l with
  | nil => simp [sortDesc]
  | cons x xs ih =>
    simp only [sortDesc, List.foldr_cons, List.mem_cons]
    rw [mem_insertDesc]
    simp only [sortDesc] at ih
    rw [ih]

theorem pairwise_insertDesc (x : ℚ × Nat) (l : List (ℚ × Nat))
    (h : l.Pairwise (fun a b => b.1 ≤ a.1)) :
    (insertDesc x l).Pairwise (fun a b => b.1 ≤ a.1) := by
  induction l with
  | nil => simp [insertDesc]
  | cons z zs ih =>
    rcases List.pairwise_cons.mp h with ⟨hz, hzs⟩
    unfold insertDesc
    by_cases hc : z.1 < x.1 ∨ (x.1 = z.1 ∧ z.2 ≤ x.2)
    · rw [if_pos hc]
      have hzx : z.1 ≤ x.1 := by
        rcases hc with hc | hc
        · exact le_of_lt hc
        · exact le_of_eq hc.1.symm
      refine List.pairwise_cons.mpr ⟨?_, h⟩
      intro q hq
      rcases List.mem_cons.mp hq with rfl | hq
      · exact hzx
      · exact le_trans (hz q hq) hzx
    · rw [if_neg hc]
      push_neg at hc
      refine List.pairwise_cons.mpr ⟨?_, ih hzs⟩
      intro q hq
      rcases (mem_insertDesc x q zs).mp hq with rfl | hq
      · exact hc.1
      · exact hz q hq

theorem pairwise_sortDesc (l : List (ℚ × Nat)) :
    (sortDesc l).Pairwise (fun a b => b.1 ≤ a.1) := by
  induction l with
  | nil => simp [sortDesc]
  | cons x xs ih => exact pairwise_insertDesc x (sortDesc xs) ih

theorem sortDesc_head_max {l : List (ℚ × Nat)} {p : ℚ × Nat}
    {rest : List (ℚ × Nat)} (h : sortDesc l = p :: rest) :
    ∀ q ∈ l, q.1 ≤ p.1 := by
  intro q hq
  have hq' : q ∈ p :: rest := by rw [← h, mem_sortDesc]; exact hq
  rcases List.mem_cons.mp hq' with rfl | hq2
  · exact le_refl _
  · have hp := pairwise_sortDesc l
    rw [h] at hp
    exact (List.pairwise_cons.mp hp).1 q hq2

theorem sortDesc_head_mem {l : List (ℚ × Nat)} {p : ℚ × Nat}
    {rest : List (ℚ × Nat)} (h : sortDesc l = p :: rest) : p ∈ l := by
  rw [← mem_sortDesc, h]
  exact List.mem_cons_self _ _

theorem alookup_mapVals (f : List Nat → List Nat) (a : AMap) (k : Nat) :
    alookup (a.map (fun p => (p.1, f p.2))) k = (alookup a k).map f := by
  induction a with
  | nil => simp [alookup]
  | cons p rest ih =>
    by_cases hp : p.1 = k
    · simp [alookup, hp]
    · simp [alookup, hp, ih]

theorem keysNodup_cons {p : Nat × List Nat} {rest : AMap}
    (h : keysNodup (p :: rest)) : p.1 ∉ rest.map Prod.fst ∧ keysNodup rest := by
  unfold keysNodup at h ⊢
  simpa using List.nodup_cons.mp h

theorem mem_alookup_of_keysNodup {a : AMap} {k : Nat} {v : List Nat}
    (hk : keysNodup a) (h : (k, v) ∈ a) : alookup a k = some v := by
  induction a with
  | nil => simp at h
  | cons p rest ih =>
    rcases keysNodup_cons hk with ⟨hp, hrest⟩
    rcases List.mem_cons.mp h with rfl | h
    · simp [alookup]
    · have hkey : k ∈ rest.map Prod.fst :=
        List.mem_map.mpr ⟨(k, v), h, rfl⟩
      have hne : ¬ (p.1 = k) := fun he => hp (he ▸ hkey)
      simp only [alookup, if_neg hne]
      exact ih hrest h

/-- Membership in the inner fold of `create_cluster_to_names_map` over one
name's cluster list. -/
theorem mem_inner_fold (name : Nat) (l : List Nat) (acc : AMap) (y c : Nat) :
    (y ∈ (alookup (l.foldl
        (fun acc2 c2 => aset acc2 c2 (setAdd ((alookup acc2 c2).getD []) name))
        acc) c).getD []) ↔
      y ∈ (alookup acc c).getD [] ∨ (y = name ∧ c ∈ l) := by
  induction l generalizing acc with
  | nil => simp
  | cons c0 cs ih =>
    simp only [List.foldl_cons]
    rw [ih]
    by_cases hc : c = c0
    · subst hc
      rw [alookup_aset_self]
      simp only [Option.getD_some, mem_setAdd, List.mem_cons]
      tauto
    · rw [alookup_aset_ne _ _ _ _ hc]
      simp only [List.mem_cons]
      tauto

/-- Membership in the inner fold of `cluster2names_map` (skipping `0`
markers). -/
theorem mem_inner_fold_pos (name : Nat) (l : List Nat) (acc : AMap) (y c : Nat) :
    (y ∈ (alookup (l.foldl
        (fun acc2 c2 =>
          if 0 < c2 then aset acc2 c2 (setAdd ((alookup acc2 c2).getD []) name)
          else acc2)
        acc) c).getD []) ↔
      y ∈ (alookup acc c).getD [] ∨ (y = name ∧ c ∈ l ∧ 0 < c) := by
  induction l generalizing acc with
  | nil => simp
  | cons c0 cs ih =>
    simp only [List.foldl_cons]
    rw [ih]
    by_cases h0 : 0 < c0
    · rw [if_pos h0]
      by_cases hc : c = c0
      · subst hc
        rw [alookup_aset_self]
        simp only [Option.getD_some, mem_setAdd, List.mem_cons]
        tauto
      · rw [alookup_aset_ne _ _ _ _ hc]
        simp only [List.mem_cons]
        tauto
    · rw [if_neg h0]
      simp only [List.mem_cons]
      constructor
      · rintro (h | ⟨rfl, h, hp⟩)
        · exact Or.inl h
        · exact Or.inr ⟨rfl, Or.inr h, hp⟩
      · rintro (h | ⟨rfl, (h | h), hp⟩)
        · exact Or.inl h
        · exact absurd (h ▸ hp) h0
        · exact Or.inr ⟨rfl, h, hp⟩

theorem mem_create_cluster_to_names_map (fwd : AMap) (y c : Nat) :
    y ∈ (alookup (create_cluster_to_names_map fwd) c).getD [] ↔
      ∃ l, (y, l) ∈ fwd ∧ c ∈ l := by
  unfold create_cluster_to_names_map
  suffices h : ∀ (acc : AMap),
      (y ∈ (alookup (fwd.foldl
        (fun acc p => p.2.foldl
          (fun acc2 c2 => aset acc2 c2 (setAdd ((alookup acc2 c2).getD []) p.1))
          acc) acc) c).getD []) ↔
        y ∈ (alookup acc c).getD [] ∨ ∃ l, (y, l) ∈ fwd ∧ c ∈ l by
    rw [h []]
    simp [alookup]
  induction fwd with
  | nil => simp
  | cons p ps ih =>
    intro acc
    simp only [List.foldl_cons]
    rw [ih, mem_inner_fold]
    constructor
    · rintro ((h | ⟨rfl, h⟩) | ⟨l, hl, hc⟩)
      · exact Or.inl h
      · exact Or.inr ⟨p.2, List.mem_cons_self _ _, h⟩
      · exact Or.inr ⟨l, List.mem_cons_of_mem _ hl, hc⟩
    · rintro (h | ⟨l, hl, hc⟩)
      · exact Or.inl (Or.inl h)
      · rcases List.mem_cons.mp hl with h | h
        · refine Or.inl (Or.inr ⟨?_, ?_⟩)
          · rw [← h]
          · rw [show p.2 = l from by rw [← h]]
            exact hc
        · exact Or.inr ⟨l, h, hc⟩

theorem mem_cluster2names_map (fwd : AMap) (y c : Nat) :
    y ∈ (alookup (cluster2names_map fwd) c).getD [] ↔
      ∃ l, (y, l) ∈ fwd ∧ c ∈ l ∧ 0 < c := by
  unfold cluster2names_map
  suffices h : ∀ (acc : AMap),
      (y ∈ (alookup (fwd.foldl
        (fun acc p => p.2.foldl
          (fun acc2 c2 =>
            if 0 < c2 then
              aset acc2 c2 (setAdd ((alookup acc2 c2).getD []) p.1)
            else acc2)
          acc) acc) c).getD []) ↔
        y ∈ (alookup acc c).getD [] ∨ ∃ l, (y, l) ∈ fwd ∧ c ∈ l ∧ 0 < c by
    rw [h []]
    simp [alookup]
  induction fwd with
  | nil => simp
  | cons p ps ih =>
    intro acc
    simp only [List.foldl_cons]
    rw [ih, mem_inner_fold_pos]
    constructor
    · rintro ((h | ⟨rfl, h, hp⟩) | ⟨l, hl, hc, hp⟩)
      · exact Or.inl h
      · exact Or.inr ⟨p.2, List.mem_cons_self _ _, h, hp⟩
      · exact Or.inr ⟨l, List.mem_cons_of_mem _ hl, hc, hp⟩
    · rintro (h | ⟨l, hl, hc, hp⟩)
      · exact Or.inl (Or.inl h)
      · rcases List.mem_cons.mp hl with h | h
        · refine Or.inl (Or.inr ⟨?_, ?_, hp⟩)
          · rw [← h]
          · rw [show p.2 = l from by rw [← h]]
            exact hc
        · exact Or.inr ⟨l, h, hc, hp⟩

/-- Overwriting a key with its current value is the identity map (given
distinct keys). -/
theorem map_overwrite_self {a : AMap} {k : Nat} {v : List Nat}
    (hk : keysNodup a) (h : alookup a k = some v) :
    a.map (fun q => if q.1 = k then (k, v) else q) = a := by
  revert h
  induction a with
  | nil => intro h; simp [alookup] at h
  | cons p rest ih =>
    intro h
    rcases keysNodup_cons hk with ⟨hp, hrest⟩
    by_cases hpk : p.1 = k
    · subst hpk
      simp only [alookup, if_pos] at h
      have hv : v = p.2 := by
        by_cases hcond : p.1 = p.1
        · simpa [hcond] using h.symm
        · exact absurd rfl hcond
      subst hv
      simp only [List.map_cons, List.cons.injEq]
      constructor
      · simp
      · -- p.1 does not occur among the keys of rest
        clear ih hrest h hk
        revert hp
        induction rest with
        | nil => intro _; simp
        | cons q qs ih2 =>
          intro hp
          simp only [List.map_cons, List.mem_cons] at hp ⊢
          push_neg at hp
          have hq : ¬ (q.1 = p.1) := fun he => hp.1 he.symm
          rw [if_neg hq, ih2 hp.2]
    · simp only [alookup, if_neg hpk] at h
      simp only [List.map_cons, if_neg hpk, List.cons.injEq, true_and]
      exact ih hrest h

/-- When the key is present with its current value, `aset` is the identity
(given distinct keys). -/
theorem aset_lookup_self {a : AMap} {k : Nat} {v : List Nat}
    (hk : keysNodup a) (h : alookup a k = some v) : aset a k v = a := by
  unfold aset
  rw [h]
  simp only [Option.isSome_some, if_pos]
  exact map_overwrite_self hk h

/-! ## The forward/inverse consistency invariant -/

namespace ClusterMembership

/-- The spec's invariant for rows:
`c ∈ clusters_for_row(r) ⟺ r ∈ rows_for_cluster(c)`. -/
def RowConsistent (m : ClusterMembership) : Prop :=
  ∀ r c, c ∈ m.clusters_for_row r ↔ r ∈ m.rows_for_cluster c

/-- The spec's invariant for columns. -/
def ColConsistent (m : ClusterMembership) : Prop :=
  ∀ col c, c ∈ m.clusters_for_column col ↔ col ∈ m.columns_for_cluster c

/-- Both directions of the invariant. -/
def Consistent (m : ClusterMembership) : Prop :=
  m.RowConsistent ∧ m.ColConsistent

/-- The sets stored in the four dictionaries are duplicate-free, as Python
sets are. -/
def WellFormed (m : ClusterMembership) : Prop :=
  valsNodup m.row_is_member_of ∧ valsNodup m.column_is_member_of ∧
  valsNodup m.cluster_row_members ∧ valsNodup m.cluster_column_members

end ClusterMembership

/-- The ensure-key-then-add pattern shared by the four halves of the unchecked
adds: reading through it behaves like a direct `setAdd` on the looked-up
value. -/
theorem ensure_setAdd_lookupD (a : AMap) (k x k' : Nat) :
    (alookup (aset (if (alookup a k).isSome then a else aset a k []) k
        (setAdd ((alookup (if (alookup a k).isSome then a
          else aset a k []) k).getD []) x)) k').getD [] =
      if k' = k then setAdd ((alookup a k).getD []) x
      else (alookup a k').getD [] := by
  by_cases hs : (alookup a k).isSome
  · rw [if_pos hs]
    by_cases hk : k' = k
    · subst hk
      rw [alookup_aset_self]
      simp
    · rw [alookup_aset_ne _ _ _ _ hk, if_neg hk]
  · rw [if_neg hs]
    have hn : alookup a k = none := Option.not_isSome_iff_eq_none.mp hs
    by_cases hk : k' = k
    · subst hk
      rw [alookup_aset_self, alookup_aset_self, hn]
      simp
    · rw [alookup_aset_ne _ _ _ _ hk, alookup_aset_ne _ _ _ _ hk, if_neg hk]

/-- The same pattern preserves duplicate-freeness of the stored sets. -/
theorem ensure_setAdd_valsNodup (a : AMap) (k x : Nat) (hw : valsNodup a) :
    valsNodup (aset (if (alookup a k).isSome then a else aset a k []) k
        (setAdd ((alookup (if (alookup a k).isSome then a
          else aset a k []) k).getD []) x)) := by
  by_cases hs : (alookup a k).isSome
  · rw [if_pos hs]
    refine valsNodup_aset hw (nodup_setAdd _ _ ?_)
    cases h : alookup a k with
    | none => simp
    | some v => simpa using valsNodup_lookup hw h
  · rw [if_neg hs]
    have hw2 : valsNodup (aset a k []) := valsNodup_aset hw List.nodup_nil
    refine valsNodup_aset hw2 (nodup_setAdd _ _ ?_)
    cases h : alookup (aset a k []) k with
    | none => simp
    | some v => simpa using valsNodup_lookup hw2 h

namespace ClusterMembership

theorem addU_row_clusters_for_row (m : ClusterMembership) (row cluster r' : Nat) :
    (m.addClusterToRowUnchecked row cluster).clusters_for_row r' =
      if r' = row then setAdd (m.clusters_for_row row) cluster
      else m.clusters_for_row r' := by
  unfold addClusterToRowUnchecked clusters_for_row
  exact ensure_setAdd_lookupD m.row_is_member_of row cluster r'

theorem addU_row_rows_for_cluster (m : ClusterMembership) (row cluster c' : Nat) :
    (m.addClusterToRowUnchecked row cluster).rows_for_cluster c' =
      if c' = cluster then setAdd (m.rows_for_cluster cluster) row
      else m.rows_for_cluster c' := by
  unfold addClusterToRowUnchecked rows_for_cluster
  exact ensure_setAdd_lookupD m.cluster_row_members cluster row c'

theorem addU_row_cols (m : ClusterMembership) (row cluster : Nat) :
    (m.addClusterToRowUnchecked row cluster).column_is_member_of =
        m.column_is_member_of ∧
      (m.addClusterToRowUnchecked row cluster).cluster_column_members =
        m.cluster_column_members :=
  ⟨rfl, rfl⟩

theorem addU_col_clusters_for_column (m : ClusterMembership) (col cluster c' : Nat) :
    (m.addClusterToColumnUnchecked col cluster).clusters_for_column c' =
      if c' = col then setAdd (m.clusters_for_column col) cluster
      else m.clusters_for_column c' := by
  unfold addClusterToColumnUnchecked clusters_for_column
  exact ensure_setAdd_lookupD m.column_is_member_of col cluster c'

theorem addU_col_columns_for_cluster (m : ClusterMembership) (col cluster c' : Nat) :
    (m.addClusterToColumnUnchecked col cluster).columns_for_cluster c' =
      if c' = cluster then setAdd (m.columns_for_cluster cluster) col
      else m.columns_for_cluster c' := by
  unfold addClusterToColumnUnchecked columns_for_cluster
  exact ensure_setAdd_lookupD m.cluster_column_members cluster col c'

theorem addU_col_rows (m : ClusterMembership) (col cluster : Nat) :
    (m.addClusterToColumnUnchecked col cluster).row_is_member_of =
        m.row_is_member_of ∧
      (m.addClusterToColumnUnchecked col cluster).cluster_row_members =
        m.cluster_row_members :=
  ⟨rfl, rfl⟩

/-- The unchecked row add preserves well-formedness and both directions of
the invariant. -/
theorem addU_row_preserves (m : ClusterMembership) (row cluster : Nat)
    (hw : m.WellFormed) (hc : m.Consistent) :
    (m.addClusterToRowUnchecked row cluster).WellFormed ∧
      (m.addClusterToRowUnchecked row cluster).Consistent := by
  obtain ⟨hw1, hw2, hw3, hw4⟩ := hw
  obtain ⟨hrc, hcc⟩ := hc
  constructor
  · refine ⟨?_, hw2, ?_, hw4⟩
    · exact ensure_setAdd_valsNodup m.row_is_member_of row cluster hw1
    · exact ensure_setAdd_valsNodup m.cluster_row_members cluster row hw3
  · constructor
    · intro r' c'
      rw [show (m.addClusterToRowUnchecked row cluster).clusters_for_row r' =
            _ from addU_row_clusters_for_row m row cluster r',
          show (m.addClusterToRowUnchecked row cluster).rows_for_cluster c' =
            _ from addU_row_rows_for_cluster m row cluster c']
      by_cases hr : r' = row
      · rw [if_pos hr]
        by_cases hcl : c' = cluster
        · rw [if_pos hcl, mem_setAdd, mem_setAdd]
          constructor
          · intro _; exact Or.inl hr
          · intro _; exact Or.inl hcl
        · rw [if_neg hcl, mem_setAdd]
          subst hr
          constructor
          · rintro (h | h)
            · exact absurd h hcl
            · exact (hrc r' c').mp h
          · intro h
            exact Or.inr ((hrc r' c').mpr h)
      · rw [if_neg hr]
        by_cases hcl : c' = cluster
        · rw [if_pos hcl, mem_setAdd]
          subst hcl
          constructor
          · intro h
            exact Or.inr ((hrc r' c').mp h)
          · rintro (h | h)
            · exact absurd h hr
            · exact (hrc r' c').mpr h
        · rw [if_neg hcl]
          exact hrc r' c'
    · intro col c'
      unfold clusters_for_column columns_for_cluster
      rw [(addU_row_cols m row cluster).1, (addU_row_cols m row cluster).2]
      exact hcc col c'

/-- The unchecked column add preserves well-formedness and the invariant. -/
theorem addU_col_preserves (m : ClusterMembership) (col cluster : Nat)
    (hw : m.WellFormed) (hc : m.Consistent) :
    (m.addClusterToColumnUnchecked col cluster).WellFormed ∧
      (m.addClusterToColumnUnchecked col cluster).Consistent := by
  obtain ⟨hw1, hw2, hw3, hw4⟩ := hw
  obtain ⟨hrc, hcc⟩ := hc
  constructor
  · refine ⟨hw1, ?_, hw3, ?_⟩
    · exact ensure_setAdd_valsNodup m.column_is_member_of col cluster hw2
    · exact ensure_setAdd_valsNodup m.cluster_column_members cluster col hw4
  · constructor
    · intro r' c'
      unfold clusters_for_row rows_for_cluster
      rw [(addU_col_rows m col cluster).1, (addU_col_rows m col cluster).2]
      exact hrc r' c'
    · intro col' c'
      rw [show (m.addClusterToColumnUnchecked col cluster).clusters_for_column col' =
            _ from addU_col_clusters_for_column m col cluster col',
          show (m.addClusterToColumnUnchecked col cluster).columns_for_cluster c' =
            _ from addU_col_columns_for_cluster m col cluster c']
      by_cases hr : col' = col
      · rw [if_pos hr]
        by_cases hcl : c' = cluster
        · rw [if_pos hcl, mem_setAdd, mem_setAdd]
          constructor
          · intro _; exact Or.inl hr
          · intro _; exact Or.inl hcl
        · rw [if_neg hcl, mem_setAdd]
          subst hr
          constructor
          · rintro (h | h)
            · exact absurd h hcl
            · exact (hcc col' c').mp h
          · intro h
            exact Or.inr ((hcc col' c').mpr h)
      · rw [if_neg hr]
        by_cases hcl : c' = cluster
        · rw [if_pos hcl, mem_setAdd]
          subst hcl
          constructor
          · intro h
            exact Or.inr ((hcc col' c').mp h)
          · rintro (h | h)
            · exact absurd h hr
            · exact (hcc col' c').mpr h
        · rw [if_neg hcl]
          exact hcc col' c'

end ClusterMembership

namespace ClusterMembership

/-- A successful `remove_cluster_from_row` preserves well-formedness and the
invariant. -/
theorem remove_row_ok_preserves (m m' : ClusterMembership) (row cluster : Nat)
    (hw : m.WellFormed) (hc : m.Consistent)
    (h : m.remove_cluster_from_row row cluster = .ok m') :
    m'.WellFormed ∧ m'.Consistent := by
  obtain ⟨hw1, hw2, hw3, hw4⟩ := hw
  obtain ⟨hrc, hcc⟩ := hc
  cases hlook : alookup m.row_is_member_of row with
  | none =>
    simp only [remove_cluster_from_row, hlook] at h
    cases hlook2 : alookup m.cluster_row_members cluster with
    | none =>
      simp only [hlook2] at h
      cases h
      exact ⟨⟨hw1, hw2, hw3, hw4⟩, hrc, hcc⟩
    | some rows =>
      simp only [hlook2] at h
      by_cases hrmem : row ∈ rows
      · rw [if_pos hrmem] at h
        cases h
        have hnd : rows.Nodup := valsNodup_lookup hw3 hlook2
        refine ⟨⟨hw1, hw2, valsNodup_aset hw3 (hnd.erase _), hw4⟩, ?_, hcc⟩
        intro r' c'
        have hcfr : (clusters_for_row m r') = (alookup m.row_is_member_of r').getD [] := rfl
        show c' ∈ clusters_for_row m r' ↔
          r' ∈ (alookup (aset m.cluster_row_members cluster (rows.erase row)) c').getD []
        rw [alookup_aset]
        by_cases hcl : c' = cluster
        · rw [if_pos hcl]
          subst hcl
          by_cases hr : r' = row
          · subst hr
            unfold clusters_for_row
            rw [hlook]
            simp only [Option.getD_none, List.not_mem_nil, false_iff]
            intro hcontra
            exact absurd ((List.Nodup.mem_erase_iff hnd).mp hcontra).1 (by simp)
          · simp only [Option.getD_some]
            rw [List.mem_erase_of_ne hr]
            have := hrc r' c'
            unfold rows_for_cluster at this
            rw [hlook2] at this
            simpa using this
        · rw [if_neg hcl]
          exact hrc r' c'
      · rw [if_neg hrmem] at h
        cases h
  | some clusters =>
    simp only [remove_cluster_from_row, hlook] at h
    by_cases hmem : cluster ∈ clusters
    · rw [if_pos hmem] at h
      have hndc : clusters.Nodup := valsNodup_lookup hw1 hlook
      cases hlook2 : alookup m.cluster_row_members cluster with
      | none =>
        simp only [hlook2] at h
        cases h
        refine ⟨⟨valsNodup_aset hw1 (hndc.erase _), hw2, hw3, hw4⟩, ?_, hcc⟩
        intro r' c'
        show c' ∈ (alookup (aset m.row_is_member_of row (clusters.erase cluster)) r').getD [] ↔
          r' ∈ rows_for_cluster m c'
        rw [alookup_aset]
        by_cases hr : r' = row
        · rw [if_pos hr]
          subst hr
          simp only [Option.getD_some]
          by_cases hcl : c' = cluster
          · subst hcl
            unfold rows_for_cluster
            rw [hlook2]
            simp only [Option.getD_none, List.not_mem_nil, iff_false]
            intro hcontra
            exact absurd ((List.Nodup.mem_erase_iff hndc).mp hcontra).1 (by simp)
          · rw [List.mem_erase_of_ne hcl]
            have := hrc r' c'
            unfold clusters_for_row at this
            rw [hlook] at this
            simpa using this
        · rw [if_neg hr]
          exact hrc r' c'
      | some rows =>
        simp only [hlook2] at h
        by_cases hrmem : row ∈ rows
        · rw [if_pos hrmem] at h
          cases h
          have hndr : rows.Nodup := valsNodup_lookup hw3 hlook2
          refine ⟨⟨valsNodup_aset hw1 (hndc.erase _), hw2,
            valsNodup_aset hw3 (hndr.erase _), hw4⟩, ?_, hcc⟩
          intro r' c'
          show c' ∈ (alookup (aset m.row_is_member_of row (clusters.erase cluster)) r').getD [] ↔
            r' ∈ (alookup (aset m.cluster_row_members cluster (rows.erase row)) c').getD []
          rw [alookup_aset, alookup_aset]
          by_cases hr : r' = row
          · rw [if_pos hr]
            subst hr
            simp only [Option.getD_some]
            by_cases hcl : c' = cluster
            · rw [if_pos hcl]
              subst hcl
              simp only [Option.getD_some]
              constructor
              · intro hcontra
                exact absurd ((List.Nodup.mem_erase_iff hndc).mp hcontra).1 (by simp)
              · intro hcontra
                exact absurd ((List.Nodup.mem_erase_iff hndr).mp hcontra).1 (by simp)
            · rw [if_neg hcl, List.mem_erase_of_ne hcl]
              have := hrc r' c'
              unfold clusters_for_row at this
              rw [hlook] at this
              simpa using this
          · rw [if_neg hr]
            by_cases hcl : c' = cluster
            · rw [if_pos hcl]
              subst hcl
              simp only [Option.getD_some]
              rw [List.mem_erase_of_ne hr]
              have := hrc r' c'
              unfold rows_for_cluster at this
              rw [hlook2] at this
              simpa using this
            · rw [if_neg hcl]
              exact hrc r' c'
        · rw [if_neg hrmem] at h
          cases h
    · rw [if_neg hmem] at h
      cases h

end ClusterMembership

namespace ClusterMembership

/-- A successful `remove_cluster_from_column` preserves well-formedness and
the invariant. -/
theorem remove_col_ok_preserves (m m' : ClusterMembership) (col cluster : Nat)
    (hw : m.WellFormed) (hc : m.Consistent)
    (h : m.remove_cluster_from_column col cluster = .ok m') :
    m'.WellFormed ∧ m'.Consistent := by
  obtain ⟨hw1, hw2, hw3, hw4⟩ := hw
  obtain ⟨hrc, hcc⟩ := hc
  cases hlook : alookup m.cluster_column_members cluster with
  | none =>
    simp only [remove_cluster_from_column, hlook] at h
    cases hlook2 : alookup m.column_is_member_of col with
    | none =>
      simp only [hlook2] at h
      cases h
      exact ⟨⟨hw1, hw2, hw3, hw4⟩, hrc, hcc⟩
    | some clusters =>
      simp only [hlook2] at h
      by_cases hmem : cluster ∈ clusters
      · rw [if_pos hmem] at h
        cases h
        have hnd : clusters.Nodup := valsNodup_lookup hw2 hlook2
        refine ⟨⟨hw1, valsNodup_aset hw2 (hnd.erase _), hw3, hw4⟩, hrc, ?_⟩
        intro col' c'
        show c' ∈ (alookup (aset m.column_is_member_of col (clusters.erase cluster)) col').getD [] ↔
          col' ∈ columns_for_cluster m c'
        rw [alookup_aset]
        by_cases hcol : col' = col
        · rw [if_pos hcol]
          subst hcol
          simp only [Option.getD_some]
          by_cases hcl : c' = cluster
          · subst hcl
            unfold columns_for_cluster
            rw [hlook]
            simp only [Option.getD_none, List.not_mem_nil, iff_false]
            intro hcontra
            exact absurd ((List.Nodup.mem_erase_iff hnd).mp hcontra).1 (by simp)
          · rw [List.mem_erase_of_ne hcl]
            have := hcc col' c'
            unfold clusters_for_column at this
            rw [hlook2] at this
            simpa using this
        · rw [if_neg hcol]
          exact hcc col' c'
      · rw [if_neg hmem] at h
        cases h
  | some cols =>
    simp only [remove_cluster_from_column, hlook] at h
    by_cases hcmem : col ∈ cols
    · rw [if_pos hcmem] at h
      have hndc : cols.Nodup := valsNodup_lookup hw4 hlook
      cases hlook2 : alookup m.column_is_member_of col with
      | none =>
        simp only [hlook2] at h
        cases h
        refine ⟨⟨hw1, hw2, hw3, valsNodup_aset hw4 (hndc.erase _)⟩, hrc, ?_⟩
        intro col' c'
        show c' ∈ clusters_for_column m col' ↔
          col' ∈ (alookup (aset m.cluster_column_members cluster (cols.erase col)) c').getD []
        rw [alookup_aset]
        by_cases hcl : c' = cluster
        · rw [if_pos hcl]
          subst hcl
          simp only [Option.getD_some]
          by_cases hcol : col' = col
          · subst hcol
            unfold clusters_for_column
            rw [hlook2]
            simp only [Option.getD_none, List.not_mem_nil, false_iff]
            intro hcontra
            exact absurd ((List.Nodup.mem_erase_iff hndc).mp hcontra).1 (by simp)
          · rw [List.mem_erase_of_ne hcol]
            have := hcc col' c'
            unfold columns_for_cluster at this
            rw [hlook] at this
            simpa using this
        · rw [if_neg hcl]
          exact hcc col' c'
      | some clusters =>
        simp only [hlook2] at h
        by_cases hmem : cluster ∈ clusters
        · rw [if_pos hmem] at h
          cases h
          have hndf : clusters.Nodup := valsNodup_lookup hw2 hlook2
          refine ⟨⟨hw1, valsNodup_aset hw2 (hndf.erase _), hw3,
            valsNodup_aset hw4 (hndc.erase _)⟩, hrc, ?_⟩
          intro col' c'
          show c' ∈ (alookup (aset m.column_is_member_of col (clusters.erase cluster)) col').getD [] ↔
            col' ∈ (alookup (aset m.cluster_column_members cluster (cols.erase col)) c').getD []
          rw [alookup_aset, alookup_aset]
          by_cases hcol : col' = col
          · rw [if_pos hcol]
            subst hcol
            simp only [Option.getD_some]
            by_cases hcl : c' = cluster
            · rw [if_pos hcl]
              subst hcl
              simp only [Option.getD_some]
              constructor
              · intro hcontra
                exact absurd ((List.Nodup.mem_erase_iff hndf).mp hcontra).1 (by simp)
              · intro hcontra
                exact absurd ((List.Nodup.mem_erase_iff hndc).mp hcontra).1 (by simp)
            · rw [if_neg hcl]
              rw [List.mem_erase_of_ne hcl]
              have := hcc col' c'
              unfold clusters_for_column at this
              rw [hlook2] at this
              simpa using this
          · rw [if_neg hcol]
            by_cases hcl : c' = cluster
            · rw [if_pos hcl]
              subst hcl
              simp only [Option.getD_some]
              rw [List.mem_erase_of_ne hcol]
              have := hcc col' c'
              unfold columns_for_cluster at this
              rw [hlook] at this
              simpa using this
            · rw [if_neg hcl]
              exact hcc col' c'
        · rw [if_neg hmem] at h
          cases h
    · rw [if_neg hcmem] at h
      cases h

/-- A successful checked `add_cluster_to_row` preserves well-formedness and
the invariant. -/
theorem add_row_ok_preserves (m m' : ClusterMembership) (row cluster : Nat)
    (hw : m.WellFormed) (hc : m.Consistent)
    (h : m.add_cluster_to_row row cluster = .ok m') :
    m'.WellFormed ∧ m'.Consistent := by
  unfold add_cluster_to_row at h
  by_cases hcap : m.num_clusters_for_row row ≥ m.clusters_per_row
  · rw [if_pos hcap] at h; cases h
  · rw [if_neg hcap] at h
    cases h
    exact addU_row_preserves m row cluster hw hc

/-- A successful checked `add_cluster_to_column` preserves well-formedness
and the invariant. -/
theorem add_col_ok_preserves (m m' : ClusterMembership) (col cluster : Nat)
    (hw : m.WellFormed) (hc : m.Consistent)
    (h : m.add_cluster_to_column col cluster = .ok m') :
    m'.WellFormed ∧ m'.Consistent := by
  unfold add_cluster_to_column at h
  by_cases hcap : m.num_clusters_for_column col ≥ m.clusters_per_col
  · rw [if_pos hcap] at h; cases h
  · rw [if_neg hcap] at h
    cases h
    exact addU_col_preserves m col cluster hw hc

/-- A successful `replace_row_cluster` preserves well-formedness and the
invariant. -/
theorem replace_row_ok_preserves (m m' : ClusterMembership)
    (row cluster replacement : Nat)
    (hw : m.WellFormed) (hc : m.Consistent)
    (h : m.replace_row_cluster row cluster replacement = .ok m') :
    m'.WellFormed ∧ m'.Consistent := by
  unfold replace_row_cluster at h
  by_cases hg : cluster ≠ replacement ∧ ¬ m.is_row_in_cluster row replacement
  · rw [if_pos hg] at h
    cases hrem : m.remove_cluster_from_row row cluster with
    | error s => rw [hrem] at h; cases h
    | ok m1 =>
      rw [hrem] at h
      obtain ⟨hw1, hc1⟩ := remove_row_ok_preserves m m1 row cluster hw hc hrem
      exact add_row_ok_preserves m1 m' row replacement hw1 hc1 h
  · rw [if_neg hg] at h
    cases h
    exact ⟨hw, hc⟩

/-- A successful `replace_column_cluster` preserves well-formedness and the
invariant. -/
theorem replace_col_ok_preserves (m m' : ClusterMembership)
    (col cluster replacement : Nat)
    (hw : m.WellFormed) (hc : m.Consistent)
    (h : m.replace_column_cluster col cluster replacement = .ok m') :
    m'.WellFormed ∧ m'.Consistent := by
  unfold replace_column_cluster at h
  by_cases hg : replacement ≠ cluster ∧ ¬ m.is_column_in_cluster col replacement
  · rw [if_pos hg] at h
    cases hrem : m.remove_cluster_from_column col cluster with
    | error s => rw [hrem] at h; cases h
    | ok m1 =>
      rw [hrem] at h
      obtain ⟨hw1, hc1⟩ := remove_col_ok_preserves m m1 col cluster hw hc hrem
      exact add_col_ok_preserves m1 m' col replacement hw1 hc1 h
  · rw [if_neg hg] at h
    cases h
    exact ⟨hw, hc⟩

end ClusterMembership

namespace OrigMembership

/-- The positive clusters currently stored in a row's slot array (empty for
an unknown row). -/
def heldRowClusters (m : OrigMembership) (row : Nat) : List Nat :=
  ((alookup m.row_memb row).getD []).filter (fun x => 0 < x)

/-- The positive clusters currently stored in a column's slot array. -/
def heldColClusters (m : OrigMembership) (col : Nat) : List Nat :=
  ((alookup m.col_memb col).getD []).filter (fun x => 0 < x)

/-- Forward/inverse consistency for rows, over the real cluster ids
(`0` is the free-slot marker, not a cluster). -/
def RowConsistent (m : OrigMembership) : Prop :=
  ∀ r c, 0 < c → (c ∈ m.heldRowClusters r ↔ r ∈ m.rows_for_cluster c)

/-- Forward/inverse consistency for columns. -/
def ColConsistent (m : OrigMembership) : Prop :=
  ∀ col c, 0 < c → (c ∈ m.heldColClusters col ↔ col ∈ m.columns_for_cluster c)

/-- Both directions of the invariant. -/
def Consistent (m : OrigMembership) : Prop :=
  m.RowConsistent ∧ m.ColConsistent

/-- The inverse maps store duplicate-free sets. -/
def WellFormed (m : OrigMembership) : Prop :=
  valsNodup m.cluster_rows ∧ valsNodup m.cluster_cols

/-- A successful `add_cluster_to_row` (checked or forced) preserves
well-formedness and the invariant. -/
theorem add_row_ok_keeps_inv (m m' : OrigMembership) (row cluster : Nat)
    (force : Bool) (hw : m.WellFormed) (hc : m.Consistent)
    (h : m.add_cluster_to_row row cluster force = .ok m') :
    m'.WellFormed ∧ m'.Consistent := by
  obtain ⟨hw1, hw2⟩ := hw
  obtain ⟨hrc, hcc⟩ := hc
  cases hlook : alookup m.row_memb row with
  | none =>
    simp only [add_cluster_to_row, hlook] at h
    exact (Except.noConfusion h)
  | some arr =>
    simp only [add_cluster_to_row, hlook] at h
    have main : ∀ arr1 : List Nat,
        (∀ c : Nat, 0 < c → (c ∈ arr1 ↔ c = cluster ∨ c ∈ arr)) →
        (WellFormed (addReverseRow { m with row_memb := aset m.row_memb row arr1 } cluster row) ∧
          Consistent (addReverseRow { m with row_memb := aset m.row_memb row arr1 } cluster row)) := by
      intro arr1 harr1
      refine ⟨⟨?_, hw2⟩, ?_, ?_⟩
      · refine valsNodup_aset hw1 (nodup_setAdd _ _ ?_)
        cases h2 : alookup m.cluster_rows cluster with
        | none => simp
        | some v => simpa using valsNodup_lookup hw1 h2
      · intro x c hcpos
        show c ∈ ((alookup (aset m.row_memb row arr1) x).getD []).filter (fun z => 0 < z) ↔
          x ∈ (alookup (aset m.cluster_rows cluster
            (setAdd ((alookup m.cluster_rows cluster).getD []) row)) c).getD []
        rw [alookup_aset, alookup_aset]
        by_cases hx : x = row
        · rw [if_pos hx]
          subst hx
          simp only [Option.getD_some]
          by_cases hcl : c = cluster
          · rw [if_pos hcl]
            subst hcl
            simp only [Option.getD_some, mem_setAdd]
            simp only [List.mem_filter, decide_eq_true_eq]
            constructor
            · intro _
              simp
            · intro _
              exact ⟨(harr1 c hcpos).mpr (Or.inl rfl), hcpos⟩
          · rw [if_neg hcl]
            simp only [List.mem_filter, decide_eq_true_eq]
            have harr : c ∈ arr1 ↔ c ∈ arr := by
              rw [harr1 c hcpos]
              simp [hcl]
            rw [harr]
            have := hrc x c hcpos
            unfold heldRowClusters at this
            rw [hlook] at this
            simp only [Option.getD_some, List.mem_filter, decide_eq_true_eq] at this
            rw [show (rows_for_cluster m c) = (alookup m.cluster_rows c).getD [] from rfl] at this
            exact this
        · rw [if_neg hx]
          by_cases hcl : c = cluster
          · rw [if_pos hcl]
            subst hcl
            simp only [Option.getD_some, mem_setAdd]
            have := hrc x c hcpos
            unfold heldRowClusters rows_for_cluster at this
            rw [this]
            constructor
            · intro hm; exact Or.inr hm
            · rintro (hm | hm)
              · exact absurd hm hx
              · exact hm
          · rw [if_neg hcl]
            have := hrc x c hcpos
            unfold heldRowClusters rows_for_cluster at this
            exact this
      · intro col c hcpos
        have := hcc col c hcpos
        unfold heldColClusters columns_for_cluster at this ⊢
        exact this
    cases hidx : pyIndex arr 0 with
    | some idx =>
      rw [hidx] at h
      cases h
      obtain ⟨hlen, hzero⟩ := pyIndex_some hidx
      refine main (arr.set idx cluster) ?_
      intro c hcpos
      constructor
      · intro hm
        exact mem_set_elim hm
      · rintro (rfl | hm)
        · exact mem_set_self _ hlen
        · refine mem_set_of_ne_getD hm ?_
          rw [hzero]
          exact Nat.pos_iff_ne_zero.mp hcpos
    | none =>
      rw [hidx] at h
      cases force with
      | false => simp at h
      | true =>
        simp only [if_pos] at h
        cases h
        refine main (arr ++ [cluster]) ?_
        intro c hcpos
        simp only [List.mem_append, List.mem_singleton]
        tauto

end OrigMembership

theorem getD_mem {l : List Nat} {idx : Nat} (h : idx < l.length) :
    l.getD idx 0 ∈ l := by
  induction l generalizing idx with
  | nil => simp at h
  | cons x xs ih =>
    cases idx with
    | zero => simp [List.getD]
    | succ n =>
      simp only [List.getD] at ih ⊢
      exact List.mem_cons_of_mem _ (ih (by simpa using h))

namespace OrigMembership

/-- A successful `add_cluster_to_column` (checked or forced) preserves
well-formedness and the invariant. -/
theorem add_col_ok_keeps_inv (m m' : OrigMembership) (col cluster : Nat)
    (force : Bool) (hw : m.WellFormed) (hc : m.Consistent)
    (h : m.add_cluster_to_column col cluster force = .ok m') :
    m'.WellFormed ∧ m'.Consistent := by
  obtain ⟨hw1, hw2⟩ := hw
  obtain ⟨hrc, hcc⟩ := hc
  cases hlook : alookup m.col_memb col with
  | none =>
    simp only [add_cluster_to_column, hlook] at h
    exact (Except.noConfusion h)
  | some arr =>
    simp only [add_cluster_to_column, hlook] at h
    have main : ∀ arr1 : List Nat,
        (∀ c : Nat, 0 < c → (c ∈ arr1 ↔ c = cluster ∨ c ∈ arr)) →
        (WellFormed (addReverseCol { m with col_memb := aset m.col_memb col arr1 } cluster col) ∧
          Consistent (addReverseCol { m with col_memb := aset m.col_memb col arr1 } cluster col)) := by
      intro arr1 harr1
      refine ⟨⟨hw1, ?_⟩, ?_, ?_⟩
      · refine valsNodup_aset hw2 (nodup_setAdd _ _ ?_)
        cases h2 : alookup m.cluster_cols cluster with
        | none => simp
        | some v => simpa using valsNodup_lookup hw2 h2
      · intro x c hcpos
        have := hrc x c hcpos
        unfold heldRowClusters rows_for_cluster at this ⊢
        exact this
      · intro x c hcpos
        show c ∈ ((alookup (aset m.col_memb col arr1) x).getD []).filter (fun z => 0 < z) ↔
          x ∈ (alookup (aset m.cluster_cols cluster
            (setAdd ((alookup m.cluster_cols cluster).getD []) col)) c).getD []
        rw [alookup_aset, alookup_aset]
        by_cases hx : x = col
        · rw [if_pos hx]
          subst hx
          simp only [Option.getD_some]
          by_cases hcl : c = cluster
          · rw [if_pos hcl]
            subst hcl
            simp only [Option.getD_some, mem_setAdd]
            simp only [List.mem_filter, decide_eq_true_eq]
            constructor
            · intro _
              simp
            · intro _
              exact ⟨(harr1 c hcpos).mpr (Or.inl rfl), hcpos⟩
          · rw [if_neg hcl]
            simp only [List.mem_filter, decide_eq_true_eq]
            have harr : c ∈ arr1 ↔ c ∈ arr := by
              rw [harr1 c hcpos]
              simp [hcl]
            rw [harr]
            have := hcc x c hcpos
            unfold heldColClusters at this
            rw [hlook] at this
            simp only [Option.getD_some, List.mem_filter, decide_eq_true_eq] at this
            rw [show (columns_for_cluster m c) = (alookup m.cluster_cols c).getD [] from rfl] at this
            exact this
        · rw [if_neg hx]
          by_cases hcl : c = cluster
          · rw [if_pos hcl]
            subst hcl
            simp only [Option.getD_some, mem_setAdd]
            have := hcc x c hcpos
            unfold heldColClusters columns_for_cluster at this
            rw [this]
            constructor
            · intro hm; exact Or.inr hm
            · rintro (hm | hm)
              · exact absurd hm hx
              · exact hm
          · rw [if_neg hcl]
            have := hcc x c hcpos
            unfold heldColClusters columns_for_cluster at this
            exact this
    cases hidx : pyIndex arr 0 with
    | some idx =>
      rw [hidx] at h
      cases h
      obtain ⟨hlen, hzero⟩ := pyIndex_some hidx
      refine main (arr.set idx cluster) ?_
      intro c hcpos
      constructor
      · intro hm
        exact mem_set_elim hm
      · rintro (rfl | hm)
        · exact mem_set_self _ hlen
        · refine mem_set_of_ne_getD hm ?_
          rw [hzero]
          exact Nat.pos_iff_ne_zero.mp hcpos
    | none =>
      rw [hidx] at h
      cases force with
      | false => simp at h
      | true =>
        simp only [if_pos] at h
        cases h
        refine main (arr ++ [cluster]) ?_
        intro c hcpos
        simp only [List.mem_append, List.mem_singleton]
        tauto

end OrigMembership

namespace OrigMembership

/-- A successful `replace_row_cluster` preserves well-formedness and the
invariant. -/
theorem replace_row_ok_keeps_inv (m m' : OrigMembership) (row idx new : Nat)
    (hw : m.WellFormed) (hc : m.Consistent)
    (h : m.replace_row_cluster row idx new = .ok m') :
    m'.WellFormed ∧ m'.Consistent := by
  obtain ⟨hw1, hw2⟩ := hw
  obtain ⟨hrc, hcc⟩ := hc
  cases hlook : alookup m.row_memb row with
  | none =>
    simp only [replace_row_cluster, hlook] at h
    exact (Except.noConfusion h)
  | some arr =>
    simp only [replace_row_cluster, hlook] at h
    by_cases hguard : new ∈ arr.filter (fun x => 0 < x)
    · rw [if_pos hguard] at h
      cases h
      exact ⟨⟨hw1, hw2⟩, hrc, hcc⟩
    · rw [if_neg hguard] at h
      by_cases hlen : idx < arr.length
      · rw [if_pos hlen] at h
        have hnew_mem : new ∈ arr.set idx new := mem_set_self new hlen
        have hold_arr : arr.getD idx 0 ∈ arr := getD_mem hlen
        by_cases hold_mem : arr.getD idx 0 ∈ arr.set idx new
        · -- the old value still occurs: no reverse-edge removal
          simp only [if_pos hold_mem] at h
          cases h
          constructor
          · exact ⟨ensure_setAdd_valsNodup m.cluster_rows new row hw1, hw2⟩
          constructor
          · intro x c hcpos
            show c ∈ ((alookup (aset m.row_memb row (arr.set idx new)) x).getD []).filter
                (fun z => 0 < z) ↔
              x ∈ (alookup (aset (if (alookup m.cluster_rows new).isSome then
                  m.cluster_rows else aset m.cluster_rows new [])
                new (setAdd ((alookup (if (alookup m.cluster_rows new).isSome then
                  m.cluster_rows else aset m.cluster_rows new []) new).getD []) row)) c).getD []
            rw [ensure_setAdd_lookupD m.cluster_rows new row c, alookup_aset]
            by_cases hx : x = row
            · rw [if_pos hx]
              subst hx
              simp only [Option.getD_some, List.mem_filter, decide_eq_true_eq]
              by_cases hcl : c = new
              · rw [if_pos hcl]
                subst hcl
                simp only [mem_setAdd]
                constructor
                · intro _; simp
                · intro _; exact ⟨hnew_mem, hcpos⟩
              · rw [if_neg hcl]
                by_cases hco : c = arr.getD idx 0
                · have hcmem : c ∈ arr.set idx new := by rw [hco]; exact hold_mem
                  have hRHS : x ∈ (alookup m.cluster_rows c).getD [] := by
                    have h2 := hrc x c hcpos
                    unfold heldRowClusters rows_for_cluster at h2
                    rw [hlook] at h2
                    refine h2.mp ?_
                    simp only [Option.getD_some, List.mem_filter, decide_eq_true_eq]
                    refine ⟨?_, hcpos⟩
                    rw [hco]
                    exact hold_arr
                  constructor
                  · intro _
                    exact hRHS
                  · intro _
                    exact ⟨hcmem, hcpos⟩
                · have harr : c ∈ arr.set idx new ↔ c ∈ arr := by
                    constructor
                    · intro hm
                      rcases mem_set_elim hm with hm | hm
                      · exact absurd hm hcl
                      · exact hm
                    · intro hm
                      exact mem_set_of_ne_getD hm hco
                  rw [harr]
                  have := hrc x c hcpos
                  unfold heldRowClusters rows_for_cluster at this
                  rw [hlook] at this
                  simpa using this
            · rw [if_neg hx]
              by_cases hcl : c = new
              · rw [if_pos hcl]
                subst hcl
                simp only [mem_setAdd]
                have := hrc x c hcpos
                unfold heldRowClusters rows_for_cluster at this
                rw [this]
                constructor
                · intro hm; exact Or.inr hm
                · rintro (hm | hm)
                  · exact absurd hm hx
                  · exact hm
              · rw [if_neg hcl]
                have := hrc x c hcpos
                unfold heldRowClusters rows_for_cluster at this
                exact this
          · intro x c hcpos
            have := hcc x c hcpos
            unfold heldColClusters columns_for_cluster at this ⊢
            exact this
        · -- the old value vanished: its reverse edge is removed first
          simp only [if_neg hold_mem] at h
          cases hlook2 : alookup m.cluster_rows (arr.getD idx 0) with
          | none =>
            simp only [hlook2] at h
            exact (Except.noConfusion h)
          | some rows =>
            simp only [hlook2] at h
            by_cases hrmem : row ∈ rows
            · rw [if_pos hrmem] at h
              cases h
              have hndr : rows.Nodup := valsNodup_lookup hw1 hlook2
              have hne_old_new : arr.getD idx 0 ≠ new :=
                fun he => hold_mem (he ▸ hnew_mem)
              have hbase : valsNodup (aset m.cluster_rows (arr.getD idx 0) (rows.erase row)) :=
                valsNodup_aset hw1 (hndr.erase _)
              constructor
              · exact ⟨ensure_setAdd_valsNodup _ new row hbase, hw2⟩
              constructor
              · intro x c hcpos
                show c ∈ ((alookup (aset m.row_memb row (arr.set idx new)) x).getD []).filter
                    (fun z => 0 < z) ↔
                  x ∈ (alookup (aset (if (alookup (aset m.cluster_rows (arr.getD idx 0)
                      (rows.erase row)) new).isSome then
                      aset m.cluster_rows (arr.getD idx 0) (rows.erase row)
                      else aset (aset m.cluster_rows (arr.getD idx 0) (rows.erase row)) new [])
                    new (setAdd ((alookup (if (alookup (aset m.cluster_rows (arr.getD idx 0)
                      (rows.erase row)) new).isSome then
                      aset m.cluster_rows (arr.getD idx 0) (rows.erase row)
                      else aset (aset m.cluster_rows (arr.getD idx 0) (rows.erase row)) new [])
                      new).getD []) row)) c).getD []
                rw [ensure_setAdd_lookupD _ new row c, alookup_aset]
                have hbase_new : alookup (aset m.cluster_rows (arr.getD idx 0) (rows.erase row)) new =
                    alookup m.cluster_rows new :=
                  alookup_aset_ne _ _ _ _ (fun he => hne_old_new he.symm)
                by_cases hx : x = row
                · rw [if_pos hx]
                  subst hx
                  simp only [Option.getD_some, List.mem_filter, decide_eq_true_eq]
                  by_cases hcl : c = new
                  · rw [if_pos hcl]
                    subst hcl
                    simp only [hbase_new, mem_setAdd]
                    constructor
                    · intro _; simp
                    · intro _; exact ⟨hnew_mem, hcpos⟩
                  · rw [if_neg hcl, alookup_aset]
                    by_cases hco : c = arr.getD idx 0
                    · rw [if_pos hco]
                      simp only [Option.getD_some]
                      constructor
                      · intro hm
                        refine absurd ?_ hold_mem
                        rw [← hco]
                        exact hm.1
                      · intro hm
                        exact absurd ((List.Nodup.mem_erase_iff hndr).mp hm).1 (by simp)
                    · rw [if_neg hco]
                      have harr : c ∈ arr.set idx new ↔ c ∈ arr := by
                        constructor
                        · intro hm
                          rcases mem_set_elim hm with hm | hm
                          · exact absurd hm hcl
                          · exact hm
                        · intro hm
                          exact mem_set_of_ne_getD hm hco
                      rw [harr]
                      have := hrc x c hcpos
                      unfold heldRowClusters rows_for_cluster at this
                      rw [hlook] at this
                      simpa using this
                · rw [if_neg hx]
                  by_cases hcl : c = new
                  · rw [if_pos hcl]
                    subst hcl
                    simp only [hbase_new, mem_setAdd]
                    have := hrc x c hcpos
                    unfold heldRowClusters rows_for_cluster at this
                    rw [this]
                    constructor
                    · intro hm; exact Or.inr hm
                    · rintro (hm | hm)
                      · exact absurd hm hx
                      · exact hm
                  · rw [if_neg hcl, alookup_aset]
                    by_cases hco : c = arr.getD idx 0
                    · rw [if_pos hco]
                      simp only [Option.getD_some]
                      rw [List.mem_erase_of_ne hx]
                      have h2 := hrc x c hcpos
                      unfold heldRowClusters rows_for_cluster at h2
                      rw [show alookup m.cluster_rows c = some rows from by
                        rw [hco]; exact hlook2] at h2
                      simpa using h2
                    · rw [if_neg hco]
                      have := hrc x c hcpos
                      unfold heldRowClusters rows_for_cluster at this
                      exact this
              · intro x c hcpos
                have := hcc x c hcpos
                unfold heldColClusters columns_for_cluster at this ⊢
                exact this
            · rw [if_neg hrmem] at h
              exact (Except.noConfusion h)
      · rw [if_neg hlen] at h
        exact (Except.noConfusion h)

end OrigMembership

namespace OrigMembership

/-- A successful `replace_column_cluster` preserves well-formedness and the
invariant. -/
theorem replace_col_ok_keeps_inv (m m' : OrigMembership) (col old new : Nat)
    (hw : m.WellFormed) (hc : m.Consistent)
    (h : m.replace_column_cluster col old new = .ok m') :
    m'.WellFormed ∧ m'.Consistent := by
  obtain ⟨hw1, hw2⟩ := hw
  obtain ⟨hrc, hcc⟩ := hc
  cases hlook : alookup m.col_memb col with
  | none =>
    simp only [replace_column_cluster, hlook] at h
    exact (Except.noConfusion h)
  | some arr =>
    simp only [replace_column_cluster, hlook] at h
    cases hidx : pyIndex arr old with
    | none =>
      rw [hidx] at h
      exact (Except.noConfusion h)
    | some idx =>
      simp only [hidx] at h
      obtain ⟨hlen, hgetd⟩ := pyIndex_some hidx
      have hnew_mem : new ∈ arr.set idx new := mem_set_self new hlen
      have hold_arr : old ∈ arr := hgetd ▸ getD_mem hlen
      by_cases hold_mem : old ∈ arr.set idx new
      · -- the old value still occurs: no reverse-edge removal
        simp only [if_pos hold_mem] at h
        cases h
        constructor
        · exact ⟨hw1, ensure_setAdd_valsNodup m.cluster_cols new col hw2⟩
        constructor
        · intro x c hcpos
          have := hrc x c hcpos
          unfold heldRowClusters rows_for_cluster at this ⊢
          exact this
        · intro x c hcpos
          show c ∈ ((alookup (aset m.col_memb col (arr.set idx new)) x).getD []).filter
              (fun z => 0 < z) ↔
            x ∈ (alookup (aset (if (alookup m.cluster_cols new).isSome then
                m.cluster_cols else aset m.cluster_cols new [])
              new (setAdd ((alookup (if (alookup m.cluster_cols new).isSome then
                m.cluster_cols else aset m.cluster_cols new []) new).getD []) col)) c).getD []
          rw [ensure_setAdd_lookupD m.cluster_cols new col c, alookup_aset]
          by_cases hx : x = col
          · rw [if_pos hx]
            subst hx
            simp only [Option.getD_some, List.mem_filter, decide_eq_true_eq]
            by_cases hcl : c = new
            · rw [if_pos hcl]
              subst hcl
              simp only [mem_setAdd]
              constructor
              · intro _; simp
              · intro _; exact ⟨hnew_mem, hcpos⟩
            · rw [if_neg hcl]
              by_cases hco : c = old
              · have hcmem : c ∈ arr.set idx new := by rw [hco]; exact hold_mem
                have hRHS : x ∈ (alookup m.cluster_cols c).getD [] := by
                  have h2 := hcc x c hcpos
                  unfold heldColClusters columns_for_cluster at h2
                  rw [hlook] at h2
                  refine h2.mp ?_
                  simp only [Option.getD_some, List.mem_filter, decide_eq_true_eq]
                  refine ⟨?_, hcpos⟩
                  rw [hco]
                  exact hold_arr
                constructor
                · intro _
                  exact hRHS
                · intro _
                  exact ⟨hcmem, hcpos⟩
              · have harr : c ∈ arr.set idx new ↔ c ∈ arr := by
                  constructor
                  · intro hm
                    rcases mem_set_elim hm with hm | hm
                    · exact absurd hm hcl
                    · exact hm
                  · intro hm
                    refine mem_set_of_ne_getD hm ?_
                    rw [hgetd]
                    exact hco
                rw [harr]
                have := hcc x c hcpos
                unfold heldColClusters columns_for_cluster at this
                rw [hlook] at this
                simpa using this
          · rw [if_neg hx]
            by_cases hcl : c = new
            · rw [if_pos hcl]
              subst hcl
              simp only [mem_setAdd]
              have := hcc x c hcpos
              unfold heldColClusters columns_for_cluster at this
              rw [this]
              constructor
              · intro hm; exact Or.inr hm
              · rintro (hm | hm)
                · exact absurd hm hx
                · exact hm
            · rw [if_neg hcl]
              have := hcc x c hcpos
              unfold heldColClusters columns_for_cluster at this
              exact this
      · -- the old value vanished: its reverse edge is removed first
        simp only [if_neg hold_mem] at h
        cases hlook2 : alookup m.cluster_cols old with
        | none =>
          simp only [hlook2] at h
          exact (Except.noConfusion h)
        | some cols =>
          simp only [hlook2] at h
          by_cases hcmem2 : col ∈ cols
          · rw [if_pos hcmem2] at h
            cases h
            have hndc : cols.Nodup := valsNodup_lookup hw2 hlook2
            have hne_old_new : old ≠ new := fun he => hold_mem (he ▸ hnew_mem)
            have hbase : valsNodup (aset m.cluster_cols old (cols.erase col)) :=
              valsNodup_aset hw2 (hndc.erase _)
            constructor
            · exact ⟨hw1, ensure_setAdd_valsNodup _ new col hbase⟩
            constructor
            · intro x c hcpos
              have := hrc x c hcpos
              unfold heldRowClusters rows_for_cluster at this ⊢
              exact this
            · intro x c hcpos
              show c ∈ ((alookup (aset m.col_memb col (arr.set idx new)) x).getD []).filter
                  (fun z => 0 < z) ↔
                x ∈ (alookup (aset (if (alookup (aset m.cluster_cols old
                    (cols.erase col)) new).isSome then
                    aset m.cluster_cols old (cols.erase col)
                    else aset (aset m.cluster_cols old (cols.erase col)) new [])
                  new (setAdd ((alookup (if (alookup (aset m.cluster_cols old
                    (cols.erase col)) new).isSome then
                    aset m.cluster_cols old (cols.erase col)
                    else aset (aset m.cluster_cols old (cols.erase col)) new [])
                    new).getD []) col)) c).getD []
              rw [ensure_setAdd_lookupD _ new col c, alookup_aset]
              have hbase_new : alookup (aset m.cluster_cols old (cols.erase col)) new =
                  alookup m.cluster_cols new :=
                alookup_aset_ne _ _ _ _ (fun he => hne_old_new he.symm)
              by_cases hx : x = col
              · rw [if_pos hx]
                subst hx
                simp only [Option.getD_some, List.mem_filter, decide_eq_true_eq]
                by_cases hcl : c = new
                · rw [if_pos hcl]
                  subst hcl
                  simp only [hbase_new, mem_setAdd]
                  constructor
                  · intro _; simp
                  · intro _; exact ⟨hnew_mem, hcpos⟩
                · rw [if_neg hcl, alookup_aset]
                  by_cases hco : c = old
                  · rw [if_pos hco]
                    simp only [Option.getD_some]
                    constructor
                    · intro hm
                      refine absurd ?_ hold_mem
                      rw [← hco]
                      exact hm.1
                    · intro hm
                      exact absurd ((List.Nodup.mem_erase_iff hndc).mp hm).1 (by simp)
                  · rw [if_neg hco]
                    have harr : c ∈ arr.set idx new ↔ c ∈ arr := by
                      constructor
                      · intro hm
                        rcases mem_set_elim hm with hm | hm
                        · exact absurd hm hcl
                        · exact hm
                      · intro hm
                        refine mem_set_of_ne_getD hm ?_
                        rw [hgetd]
                        exact hco
                    rw [harr]
                    have := hcc x c hcpos
                    unfold heldColClusters columns_for_cluster at this
                    rw [hlook] at this
                    simpa using this
              · rw [if_neg hx]
                by_cases hcl : c = new
                · rw [if_pos hcl]
                  subst hcl
                  simp only [hbase_new, mem_setAdd]
                  have := hcc x c hcpos
                  unfold heldColClusters columns_for_cluster at this
                  rw [this]
                  constructor
                  · intro hm; exact Or.inr hm
                  · rintro (hm | hm)
                    · exact absurd hm hx
                    · exact hm
                · rw [if_neg hcl, alookup_aset]
                  by_cases hco : c = old
                  · rw [if_pos hco]
                    simp only [Option.getD_some]
                    rw [List.mem_erase_of_ne hx]
                    have h2 := hcc x c hcpos
                    unfold heldColClusters columns_for_cluster at h2
                    rw [show alookup m.cluster_cols c = some cols from by
                      rw [hco]; exact hlook2] at h2
                    simpa using h2
                  · rw [if_neg hco]
                    have := hcc x c hcpos
                    unfold heldColClusters columns_for_cluster at this
                    exact this
          · rw [if_neg hcmem2] at h
            exact (Except.noConfusion h)

end OrigMembership

/-! ## Claim C1 -/

/-- **C1**: For both membership representations (`ClusterMembership` and
`OrigMembership`), for every row `r` and cluster `c`, `c ∈ clusters_for_row(r)`
iff `r ∈ rows_for_cluster(c)` — and symmetrically for columns — and this
biconditional holds after every single `add_cluster_to_row` /
`remove_cluster_from_row` / `replace_row_cluster` operation (and their column
analogs) that completes normally, applied to a well-formed (set values are
duplicate-free, as Python sets) state that satisfies it. -/
theorem c1_invariant_preserved_by_all_operations
    (m : ClusterMembership) (t : OrigMembership)
    (hmw : m.WellFormed) (hmc : m.Consistent)
    (htw : t.WellFormed) (htc : t.Consistent) :
    (∀ row cluster m', m.add_cluster_to_row row cluster = .ok m' →
      m'.Consistent) ∧
    (∀ row cluster m', m.remove_cluster_from_row row cluster = .ok m' →
      m'.Consistent) ∧
    (∀ row cluster repl m', m.replace_row_cluster row cluster repl = .ok m' →
      m'.Consistent) ∧
    (∀ col cluster m', m.add_cluster_to_column col cluster = .ok m' →
      m'.Consistent) ∧
    (∀ col cluster m', m.remove_cluster_from_column col cluster = .ok m' →
      m'.Consistent) ∧
    (∀ col cluster repl m', m.replace_column_cluster col cluster repl = .ok m' →
      m'.Consistent) ∧
    (∀ row cluster force t', t.add_cluster_to_row row cluster force = .ok t' →
      t'.Consistent) ∧
    (∀ row idx new t', t.replace_row_cluster row idx new = .ok t' →
      t'.Consistent) ∧
    (∀ col cluster force t', t.add_cluster_to_column col cluster force = .ok t' →
      t'.Consistent) ∧
    (∀ col old new t', t.replace_column_cluster col old new = .ok t' →
      t'.Consistent) := by
  refine ⟨?_, ?_, ?_, ?_, ?_, ?_, ?_, ?_, ?_, ?_⟩
  · intro row cluster m' h
    exact (ClusterMembership.add_row_ok_preserves m m' row cluster hmw hmc h).2
  · intro row cluster m' h
    exact (ClusterMembership.remove_row_ok_preserves m m' row cluster hmw hmc h).2
  · intro row cluster repl m' h
    exact (ClusterMembership.replace_row_ok_preserves m m' row cluster repl hmw hmc h).2
  · intro col cluster m' h
    exact (ClusterMembership.add_col_ok_preserves m m' col cluster hmw hmc h).2
  · intro col cluster m' h
    exact (ClusterMembership.remove_col_ok_preserves m m' col cluster hmw hmc h).2
  · intro col cluster repl m' h
    exact (ClusterMembership.replace_col_ok_preserves m m' col cluster repl hmw hmc h).2
  · intro row cluster force t' h
    exact (OrigMembership.add_row_ok_keeps_inv t t' row cluster force htw htc h).2
  · intro row idx new t' h
    exact (OrigMembership.replace_row_ok_keeps_inv t t' row idx new htw htc h).2
  · intro col cluster force t' h
    exact (OrigMembership.add_col_ok_keeps_inv t t' col cluster force htw htc h).2
  · intro col old new t' h
    exact (OrigMembership.replace_col_ok_keeps_inv t t' col old new htw htc h).2

/-- The four states of the C1 witness. -/
def c1CM : ClusterMembership := ⟨2, 2, [], [], [], []⟩

/-- `c1CM` after the checked add of cluster 2 to row 1. -/
def c1CMadd : ClusterMembership := ⟨2, 2, [(1, [2])], [], [(2, [1])], []⟩

/-- A one-row `OrigMembership` with two free slots. -/
def c1OM : OrigMembership := ⟨2, 2, [(1, [0, 0])], [], [], []⟩

/-- `c1OM` after the checked add of cluster 2 to row 1. -/
def c1OMadd : OrigMembership := ⟨2, 2, [(1, [2, 0])], [], [(2, [1])], []⟩

/-- Witness for C1: the hypotheses hold at the concrete states above and the
theorem yields the invariant after a concrete add in each representation. -/
theorem c1_invariant_preserved_witness :
    c1CM.WellFormed ∧ c1CM.Consistent ∧ c1OM.WellFormed ∧ c1OM.Consistent ∧
    ClusterMembership.add_cluster_to_row c1CM 1 2 = .ok c1CMadd ∧
    c1CMadd.Consistent ∧
    OrigMembership.add_cluster_to_row c1OM 1 2 false = .ok c1OMadd ∧
    c1OMadd.Consistent := by
  have hmw : c1CM.WellFormed := by
    refine ⟨?_, ?_, ?_, ?_⟩ <;> intro p hp <;> simp [c1CM] at hp
  have hmc : c1CM.Consistent := by
    constructor <;> intro r c <;>
      simp [c1CM, ClusterMembership.clusters_for_row,
        ClusterMembership.rows_for_cluster, ClusterMembership.clusters_for_column,
        ClusterMembership.columns_for_cluster, alookup]
  have htw : c1OM.WellFormed := by
    constructor <;> intro p hp <;> simp [c1OM] at hp
  have htc : c1OM.Consistent := by
    constructor <;> intro r c hc <;>
      [skip; skip] <;> first
      | (by_cases hr : (1 : Nat) = r <;>
          simp [c1OM, OrigMembership.heldRowClusters, OrigMembership.rows_for_cluster,
            OrigMembership.heldColClusters, OrigMembership.columns_for_cluster,
            alookup, hr])
  have hthm := c1_invariant_preserved_by_all_operations c1CM c1OM hmw hmc htw htc
  have hadd1 : ClusterMembership.add_cluster_to_row c1CM 1 2 = .ok c1CMadd := by rfl
  have hadd2 : OrigMembership.add_cluster_to_row c1OM 1 2 false = .ok c1OMadd := by rfl
  exact ⟨hmw, hmc, htw, htc, hadd1, hthm.1 1 2 c1CMadd hadd1,
    hadd2, (hthm.2.2.2.2.2.2).1 1 2 false c1OMadd hadd2⟩

/-! ## Claim C10 -/

/-- **C10**: In `ClusterMembership`, calling `remove_cluster_from_row(row, c)`
when the row is present in the forward map but `c` is not among its clusters
raises a `KeyError` (the failing `set.remove`) rather than being a silent
no-op, and both the forward and the inverse map are left unchanged: the error
state is exactly the input state, because the failing removal happens before
any mutation. -/
theorem c10_remove_missing_cluster_raises_unchanged (m : ClusterMembership)
    (row cluster : Nat) (clusters : List Nat)
    (h1 : alookup m.row_is_member_of row = some clusters)
    (h2 : cluster ∉ clusters) :
    m.remove_cluster_from_row row cluster = .error m := by
  simp only [ClusterMembership.remove_cluster_from_row, h1, if_neg h2]

/-- State for the C10 witness: row 1 holds exactly cluster 3. -/
def c10CM : ClusterMembership := ⟨2, 2, [(1, [3])], [], [(3, [1])], []⟩

/-- Witness for C10 at row 1 and the absent cluster 9. -/
theorem c10_remove_missing_cluster_witness :
    alookup c10CM.row_is_member_of 1 = some [3] ∧ (9 : Nat) ∉ [3] ∧
    ClusterMembership.remove_cluster_from_row c10CM 1 9 = .error c10CM :=
  ⟨rfl, by decide,
    c10_remove_missing_cluster_raises_unchanged c10CM 1 9 [3] rfl (by decide)⟩

/-! ## Claim C7 -/

/-- **C7**: The checked `add_cluster_to_row(row, c)` raises a
capacity-exceeded error exactly when the row already holds `clusters_per_row`
clusters — for `ClusterMembership` given that the count is within the cap,
for `OrigMembership` (`force=False`) given that the row's slot array has the
configured width and holds no duplicate clusters; on success the pair is
inserted into both the forward and the inverse map.  The forced paths — the
unchecked add used by `postadjust` in `ClusterMembership`, and `force=True`
in `OrigMembership` — bypass the check.  The column analogs behave
symmetrically (stated here for the `OrigMembership` column add; the
`ClusterMembership` column add is the exact mirror of its row add). -/
theorem c7_checked_add_capacity (m : ClusterMembership) (t : OrigMembership)
    (row cluster col : Nat) (arr arrc : List Nat)
    (hmrow : m.num_clusters_for_row row ≤ m.clusters_per_row)
    (hmcol : m.num_clusters_for_column col ≤ m.clusters_per_col)
    (hcpos : 0 < cluster)
    (htlook : alookup t.row_memb row = some arr)
    (htlen : arr.length = t.clusters_per_row)
    (htnd : (arr.filter (fun x => 0 < x)).Nodup)
    (htlookc : alookup t.col_memb col = some arrc)
    (htlenc : arrc.length = t.clusters_per_col)
    (htndc : (arrc.filter (fun x => 0 < x)).Nodup) :
    (m.add_cluster_to_row row cluster = .error m ↔
      m.num_clusters_for_row row = m.clusters_per_row) ∧
    (∀ m', m.add_cluster_to_row row cluster = .ok m' →
      cluster ∈ m'.clusters_for_row row ∧ row ∈ m'.rows_for_cluster cluster) ∧
    (cluster ∈ (m.addClusterToRowUnchecked row cluster).clusters_for_row row ∧
      row ∈ (m.addClusterToRowUnchecked row cluster).rows_for_cluster cluster) ∧
    (m.add_cluster_to_column col cluster = .error m ↔
      m.num_clusters_for_column col = m.clusters_per_col) ∧
    (t.add_cluster_to_row row cluster false = .error t ↔
      t.num_clusters_for_row row = t.clusters_per_row) ∧
    (∀ t', t.add_cluster_to_row row cluster false = .ok t' →
      cluster ∈ t'.heldRowClusters row ∧ row ∈ t'.rows_for_cluster cluster) ∧
    (∃ t', t.add_cluster_to_row row cluster true = .ok t') ∧
    (t.add_cluster_to_column col cluster false = .error t ↔
      t.num_clusters_for_column col = t.clusters_per_col) ∧
    (∀ t', t.add_cluster_to_column col cluster false = .ok t' →
      cluster ∈ t'.heldColClusters col ∧ col ∈ t'.columns_for_cluster cluster) ∧
    (∃ t', t.add_cluster_to_column col cluster true = .ok t') := by
  have hfilter_iff : ∀ a : List Nat, (0 ∉ a ↔ a.filter (fun x => 0 < x) = a) := by
    intro a
    constructor
    · intro h0
      refine List.filter_eq_self.mpr ?_
      intro x hx
      have : x ≠ 0 := fun he => h0 (he ▸ hx)
      simpa using Nat.pos_of_ne_zero this
    · intro hf h0
      have := List.filter_eq_self.mp hf 0 h0
      simp at this
  have hnum_row : t.num_clusters_for_row row = (arr.filter (fun x => 0 < x)).length := by
    unfold OrigMembership.num_clusters_for_row OrigMembership.clusters_for_row
    rw [htlook]
    simp [List.Nodup.dedup htnd]
  have hnum_col : t.num_clusters_for_column col = (arrc.filter (fun x => 0 < x)).length := by
    unfold OrigMembership.num_clusters_for_column OrigMembership.clusters_for_column
    rw [htlookc]
    simp [List.Nodup.dedup htndc]
  have hzero_iff : ∀ (a : List Nat) (cap : Nat), a.length = cap →
      ((pyIndex a 0 = none) ↔ (a.filter (fun x => 0 < x)).length = cap) := by
    intro a cap hlen
    rw [pyIndex_none, ← hlen]
    constructor
    · intro h0
      rw [(hfilter_iff a).mp h0]
    · intro hleneq
      have hsub : (a.filter (fun x => 0 < x)).Sublist a := List.filter_sublist a
      have : a.filter (fun x => 0 < x) = a := hsub.eq_of_length hleneq
      exact (hfilter_iff a).mpr this
  refine ⟨?_, ?_, ?_, ?_, ?_, ?_, ?_, ?_, ?_, ?_⟩
  · -- CM row: error iff at capacity
    unfold ClusterMembership.add_cluster_to_row
    by_cases hcap : m.num_clusters_for_row row ≥ m.clusters_per_row
    · rw [if_pos hcap]
      simp only [true_iff]
      exact Nat.le_antisymm hmrow hcap
    · rw [if_neg hcap]
      constructor
      · intro h; exact (Except.noConfusion h)
      · intro h
        exact absurd (ge_of_eq h) hcap
  · -- CM row: success inserts into both maps
    intro m' h
    unfold ClusterMembership.add_cluster_to_row at h
    by_cases hcap : m.num_clusters_for_row row ≥ m.clusters_per_row
    · rw [if_pos hcap] at h; exact (Except.noConfusion h)
    · rw [if_neg hcap] at h
      cases h
      constructor
      · rw [ClusterMembership.addU_row_clusters_for_row, if_pos rfl, mem_setAdd]
        exact Or.inl rfl
      · rw [ClusterMembership.addU_row_rows_for_cluster, if_pos rfl, mem_setAdd]
        exact Or.inl rfl
  · -- CM row: the unchecked (forced) add inserts unconditionally
    constructor
    · rw [ClusterMembership.addU_row_clusters_for_row, if_pos rfl, mem_setAdd]
      exact Or.inl rfl
    · rw [ClusterMembership.addU_row_rows_for_cluster, if_pos rfl, mem_setAdd]
      exact Or.inl rfl
  · -- CM column: error iff at capacity
    unfold ClusterMembership.add_cluster_to_column
    by_cases hcap : m.num_clusters_for_column col ≥ m.clusters_per_col
    · rw [if_pos hcap]
      simp only [true_iff]
      exact Nat.le_antisymm hmcol hcap
    · rw [if_neg hcap]
      constructor
      · intro h; exact (Except.noConfusion h)
      · intro h
        exact absurd (ge_of_eq h) hcap
  · -- OM row: error iff the slot array is full of clusters
    rw [hnum_row, ← htlen]
    simp only [OrigMembership.add_cluster_to_row, htlook]
    cases hidx : pyIndex arr 0 with
    | some idx =>
      simp only
      constructor
      · intro h; exact (Except.noConfusion h)
      · intro h
        have := (hzero_iff arr arr.length rfl).mpr h
        rw [hidx] at this
        exact (Option.noConfusion this)
    | none =>
      simp only [Bool.false_eq_true, if_false]
      constructor
      · intro _
        exact (hzero_iff arr arr.length rfl).mp hidx
      · intro _
        trivial
  · -- OM row: success inserts into both maps
    intro t' h
    simp only [OrigMembership.add_cluster_to_row, htlook] at h
    cases hidx : pyIndex arr 0 with
    | some idx =>
      rw [hidx] at h
      cases h
      obtain ⟨hlen2, _⟩ := pyIndex_some hidx
      constructor
      · show cluster ∈ ((alookup (aset t.row_memb row (arr.set idx cluster)) row).getD []).filter
          (fun z => 0 < z)
        rw [alookup_aset_self]
        simp only [Option.getD_some, List.mem_filter, decide_eq_true_eq]
        exact ⟨mem_set_self _ hlen2, hcpos⟩
      · show row ∈ (alookup (aset t.cluster_rows cluster
          (setAdd ((alookup t.cluster_rows cluster).getD []) row)) cluster).getD []
        rw [alookup_aset_self]
        simp only [Option.getD_some, mem_setAdd]
        exact Or.inl trivial
    | none =>
      rw [hidx] at h
      simp at h
  · -- OM row: the forced add never raises when the row exists
    simp only [OrigMembership.add_cluster_to_row, htlook]
    cases hidx : pyIndex arr 0 with
    | some idx => exact ⟨_, rfl⟩
    | none => exact ⟨_, rfl⟩
  · -- OM column: error iff the slot array is full of clusters
    rw [hnum_col, ← htlenc]
    simp only [OrigMembership.add_cluster_to_column, htlookc]
    cases hidx : pyIndex arrc 0 with
    | some idx =>
      simp only
      constructor
      · intro h; exact (Except.noConfusion h)
      · intro h
        have := (hzero_iff arrc arrc.length rfl).mpr h
        rw [hidx] at this
        exact (Option.noConfusion this)
    | none =>
      simp only [Bool.false_eq_true, if_false]
      constructor
      · intro _
        exact (hzero_iff arrc arrc.length rfl).mp hidx
      · intro _
        trivial
  · -- OM column: success inserts into both maps
    intro t' h
    simp only [OrigMembership.add_cluster_to_column, htlookc] at h
    cases hidx : pyIndex arrc 0 with
    | some idx =>
      rw [hidx] at h
      cases h
      obtain ⟨hlen2, _⟩ := pyIndex_some hidx
      constructor
      · show cluster ∈ ((alookup (aset t.col_memb col (arrc.set idx cluster)) col).getD []).filter
          (fun z => 0 < z)
        rw [alookup_aset_self]
        simp only [Option.getD_some, List.mem_filter, decide_eq_true_eq]
        exact ⟨mem_set_self _ hlen2, hcpos⟩
      · show col ∈ (alookup (aset t.cluster_cols cluster
          (setAdd ((alookup t.cluster_cols cluster).getD []) col)) cluster).getD []
        rw [alookup_aset_self]
        simp only [Option.getD_some, mem_setAdd]
        exact Or.inl trivial
    | none =>
      rw [hidx] at h
      simp at h
  · -- OM column: the forced add never raises when the column exists
    simp only [OrigMembership.add_cluster_to_column, htlookc]
    cases hidx : pyIndex arrc 0 with
    | some idx => exact ⟨_, rfl⟩
    | none => exact ⟨_, rfl⟩

/-- `ClusterMembership` state for the C7 witness: capacity 2, row 1 holds one
cluster. -/
def c7CM : ClusterMembership := ⟨2, 2, [(1, [3])], [(6, [4])], [(3, [1])], [(4, [6])]⟩

/-- `OrigMembership` state for the C7 witness: width-2 slot arrays with one
free slot each. -/
def c7OM : OrigMembership := ⟨2, 2, [(1, [5, 0])], [(6, [7, 0])], [(5, [1])], [(7, [6])]⟩

/-- Witness for C7 at the states above, adding cluster 9. -/
theorem c7_checked_add_capacity_witness :
    c7CM.num_clusters_for_row 1 ≤ c7CM.clusters_per_row ∧
    (0 : Nat) < 9 ∧
    alookup c7OM.row_memb 1 = some [5, 0] ∧
    ((ClusterMembership.add_cluster_to_row c7CM 1 9 = .error c7CM) ↔
      c7CM.num_clusters_for_row 1 = c7CM.clusters_per_row) ∧
    ((OrigMembership.add_cluster_to_row c7OM 1 9 false = .error c7OM) ↔
      c7OM.num_clusters_for_row 1 = c7OM.clusters_per_row) ∧
    (∃ t', OrigMembership.add_cluster_to_row c7OM 1 9 true = .ok t') := by
  have h := c7_checked_add_capacity c7CM c7OM 1 9 6 [5, 0] [7, 0]
    (by decide) (by decide) (by decide) rfl rfl (by decide) rfl rfl (by decide)
  exact ⟨by decide, by decide, rfl, h.1, h.2.2.2.2.1, h.2.2.2.2.2.2.1⟩

/-! ## Claim C4 -/

/-- The empty `ClusterMembership` store used by the C4 counterexample. -/
def c4CM : ClusterMembership := ⟨2, 2, [], [], [], []⟩

/-- The empty `OrigMembership` store used by the C4 witness. -/
def c4OM : OrigMembership := ⟨2, 2, [], [], [], []⟩

/-- **C4 counterexample**: the claim says a lookup of a row name absent from
the membership maps raises a NotFound-style error rather than silently
returning an empty set.  `ClusterMembership.clusters_for_row` is
`self.__row_is_member_of.get(row_name, set())`: for row 42, absent from the
map, it silently returns the empty set — it has no raising path at all. -/
theorem c4_missing_row_silent_empty_counterexample :
    alookup c4CM.row_is_member_of 42 = none ∧
    ClusterMembership.clusters_for_row c4CM 42 = [] :=
  ⟨rfl, rfl⟩

/-- **C4 (amended)**: `OrigMembership.clusters_for_row` /
`clusters_for_column` raise a `KeyError` for names absent from the membership
maps, but `ClusterMembership`'s lookups silently return the empty set; a
cluster with zero members yields the empty set from `rows_for_cluster` /
`columns_for_cluster` in both representations. -/
theorem c4_missing_entity_lookup_behavior
    (m : ClusterMembership) (t : OrigMembership) (name cluster : Nat)
    (hm_row : alookup m.row_is_member_of name = none)
    (hm_col : alookup m.column_is_member_of name = none)
    (ht_row : alookup t.row_memb name = none)
    (ht_col : alookup t.col_memb name = none)
    (hm_rc : alookup m.cluster_row_members cluster = none)
    (hm_cc : alookup m.cluster_column_members cluster = none)
    (ht_rc : alookup t.cluster_rows cluster = none)
    (ht_cc : alookup t.cluster_cols cluster = none) :
    m.clusters_for_row name = [] ∧
    m.clusters_for_column name = [] ∧
    t.clusters_for_row name = none ∧
    t.clusters_for_column name = none ∧
    m.rows_for_cluster cluster = [] ∧
    m.columns_for_cluster cluster = [] ∧
    t.rows_for_cluster cluster = [] ∧
    t.columns_for_cluster cluster = [] := by
  unfold ClusterMembership.clusters_for_row ClusterMembership.clusters_for_column
    OrigMembership.clusters_for_row OrigMembership.clusters_for_column
    ClusterMembership.rows_for_cluster ClusterMembership.columns_for_cluster
    OrigMembership.rows_for_cluster OrigMembership.columns_for_cluster
  rw [hm_row, hm_col, ht_row, ht_col, hm_rc, hm_cc, ht_rc, ht_cc]
  exact ⟨rfl, rfl, rfl, rfl, rfl, rfl, rfl, rfl⟩

/-- Witness for the amended C4 at the empty stores, name 42 and cluster 9. -/
theorem c4_missing_entity_lookup_witness :
    alookup c4CM.row_is_member_of 42 = none ∧
    alookup c4OM.row_memb 42 = none ∧
    ClusterMembership.clusters_for_row c4CM 42 = [] ∧
    OrigMembership.clusters_for_row c4OM 42 = none ∧
    ClusterMembership.rows_for_cluster c4CM 9 = [] ∧
    OrigMembership.rows_for_cluster c4OM 9 = [] := by
  have h := c4_missing_entity_lookup_behavior c4CM c4OM 42 9
    rfl rfl rfl rfl rfl rfl rfl rfl
  exact ⟨rfl, rfl, h.1, h.2.2.1, h.2.2.2.2.1, h.2.2.2.2.2.2.1⟩

/-! ## Claim C6 -/

/-- **C6 counterexample**: the claim says the column-side density computation
falls back to the uniform score exactly when the cluster has no row members,
no column members, or no finite scores.  With one row member, exactly one
column member and a finite score, none of the claim's conditions holds, yet
`get_cc_scores` (whose guard is `len(cluster_columns) <= 1`) still returns
the uniform vector. -/
theorem c6_cc_single_column_fallback_counterexample :
    ¬(([1] : List Nat).length = 0 ∨
        (([some 1] : List (Option ℚ)).filterMap id).length = 0 ∨
        ([1] : List Nat).length = 0) ∧
    get_cc_scores [1] [1] [some 1] [some 1] =
      .uniform (List.replicate ([some 1] : List (Option ℚ)).length
        (1 / ((([some 1] : List (Option ℚ)).length : ℚ)))) := by
  refine ⟨by decide, ?_⟩
  unfold get_cc_scores
  rw [if_pos (by decide)]

/-- **C6 (amended)**: `get_rr_scores` yields the uniform vector
`1/num_rows` exactly when the cluster has no row members, no finite raw
scores, or no column members; `get_cc_scores` yields it exactly when the
cluster has no row members, no finite raw scores, or **at most one** column
member.  In particular a cluster with zero row members yields `1/num_rows`
for every row. -/
theorem c6_density_fallback_characterization
    (cluster_rows cluster_columns : List Nat)
    (kscores member_scores : List (Option ℚ)) :
    ((get_rr_scores cluster_rows cluster_columns kscores member_scores =
        .uniform (List.replicate kscores.length (1 / (kscores.length : ℚ)))) ↔
      (cluster_rows.length = 0 ∨ (kscores.filterMap id).length = 0 ∨
        cluster_columns.length = 0)) ∧
    ((get_cc_scores cluster_rows cluster_columns kscores member_scores =
        .uniform (List.replicate kscores.length (1 / (kscores.length : ℚ)))) ↔
      (cluster_rows.length = 0 ∨ (kscores.filterMap id).length = 0 ∨
        cluster_columns.length ≤ 1)) ∧
    (cluster_rows = [] →
      get_rr_scores cluster_rows cluster_columns kscores member_scores =
        .uniform (List.replicate kscores.length (1 / (kscores.length : ℚ)))) := by
  refine ⟨?_, ?_, ?_⟩
  · unfold get_rr_scores
    by_cases hcond : cluster_rows.length = 0 ∨ (kscores.filterMap id).length = 0 ∨
        cluster_columns.length = 0
    · rw [if_pos hcond]
      exact iff_of_true rfl hcond
    · rw [if_neg hcond]
      refine iff_of_false ?_ hcond
      intro hcontra
      exact DensityResult.noConfusion hcontra
  · unfold get_cc_scores
    by_cases hcond : cluster_rows.length = 0 ∨ (kscores.filterMap id).length = 0 ∨
        cluster_columns.length ≤ 1
    · rw [if_pos hcond]
      exact iff_of_true rfl hcond
    · rw [if_neg hcond]
      refine iff_of_false ?_ hcond
      intro hcontra
      exact DensityResult.noConfusion hcontra
  · intro hrows
    unfold get_rr_scores
    rw [if_pos (Or.inl (by rw [hrows]; rfl))]

/-- Witness for the amended C6: an empty cluster falls back uniformly, and a
populated two-column cluster takes the density branch. -/
theorem c6_density_fallback_witness :
    get_rr_scores [] [1] [some 2, some 3] [] =
      .uniform (List.replicate 2 (1 / (2 : ℚ))) ∧
    get_rr_scores [1] [1, 2] [some 2, some 3] [some 2] =
      .densityBranch [some 2] := by
  constructor
  · exact (c6_density_fallback_characterization [] [1] [some 2, some 3] []).2.2 rfl
  · have h := (c6_density_fallback_characterization [1] [1, 2] [some 2, some 3] [some 2]).1
    unfold get_rr_scores
    rw [if_neg (by decide)]

/-! ## Claim C9 -/

/-- **C9** (evaluating the code at the failing input): the post-adjustment
candidate selection `max_row_in_column` initialises `max_score` with
`sys.float_info.min` — the smallest **positive** double — instead of
negative infinity, so on the all-negative score column `[-5, -1]` it returns
index 0 (score `-5`) although index 1 carries the strictly higher score `-1`.
The claim (and the function's own docstring, "returns ... the maximum row
index and score") requires the highest-scoring candidate. -/
theorem c9_max_row_in_column_ignores_negative_scores :
    max_row_in_column [-5, -1] = 0 ∧ ((-5 : ℚ) < -1) := by
  have hpos : 0 < float_info_min := by
    unfold float_info_min
    positivity
  have h1 : ¬ ((-5 : ℚ) > float_info_min) := by
    intro hgt
    exact absurd (lt_trans hpos hgt) (by norm_num)
  have h2 : ¬ ((-1 : ℚ) > float_info_min) := by
    intro hgt
    exact absurd (lt_trans hpos hgt) (by norm_num)
  constructor
  · simp only [max_row_in_column, maxRowAux, if_neg h1, if_neg h2]
  · norm_num

/-! ## Claim C5 -/

namespace ClusterMembership

/-- After a successful `remove_cluster_from_row`, the removed cluster is no
longer among the row's clusters (duplicate-freeness of the stored sets
assumed). -/
theorem remove_row_ok_forward (m m1 : ClusterMembership) (row cluster : Nat)
    (hw1 : valsNodup m.row_is_member_of)
    (h : m.remove_cluster_from_row row cluster = .ok m1) :
    cluster ∉ m1.clusters_for_row row := by
  cases hlook : alookup m.row_is_member_of row with
  | none =>
    simp only [remove_cluster_from_row, hlook] at h
    cases hlook2 : alookup m.cluster_row_members cluster with
    | none =>
      simp only [hlook2] at h
      cases h
      unfold clusters_for_row
      rw [hlook]
      simp
    | some rows =>
      simp only [hlook2] at h
      by_cases hrmem : row ∈ rows
      · rw [if_pos hrmem] at h
        cases h
        show cluster ∉ (alookup m.row_is_member_of row).getD []
        rw [hlook]
        simp
      · rw [if_neg hrmem] at h
        cases h
  | some clusters =>
    simp only [remove_cluster_from_row, hlook] at h
    by_cases hmem : cluster ∈ clusters
    · rw [if_pos hmem] at h
      have hnd : clusters.Nodup := valsNodup_lookup hw1 hlook
      cases hlook2 : alookup m.cluster_row_members cluster with
      | none =>
        simp only [hlook2] at h
        cases h
        show cluster ∉ (alookup (aset m.row_is_member_of row (clusters.erase cluster)) row).getD []
        rw [alookup_aset_self]
        simp only [Option.getD_some]
        intro hcontra
        exact absurd ((List.Nodup.mem_erase_iff hnd).mp hcontra).1 (by simp)
      | some rows =>
        simp only [hlook2] at h
        by_cases hrmem : row ∈ rows
        · rw [if_pos hrmem] at h
          cases h
          show cluster ∉ (alookup (aset m.row_is_member_of row (clusters.erase cluster)) row).getD []
          rw [alookup_aset_self]
          simp only [Option.getD_some]
          intro hcontra
          exact absurd ((List.Nodup.mem_erase_iff hnd).mp hcontra).1 (by simp)
        · rw [if_neg hrmem] at h
          cases h
    · rw [if_neg hmem] at h
      cases h

end ClusterMembership

/-- The `OrigMembership` state of the C5 counterexample: column 1's slot
array holds clusters 1 and 2. -/
def c5OM : OrigMembership := ⟨2, 2, [], [(1, [1, 2])], [], [(1, [1]), (2, [1])]⟩

/-- What `replace_column_cluster(1, 1, 2)` turns `c5OM` into: the slot array
becomes `[2, 2]` and cluster 1 loses the column. -/
def c5OMres : OrigMembership := ⟨2, 2, [], [(1, [2, 2])], [], [(1, []), (2, [1])]⟩

/-- **C5 counterexample**: the claim says replacement happens only when the
new cluster is not already held, otherwise the state is completely unchanged.
`OrigMembership.replace_column_cluster` has no such guard: replacing cluster
1 by the already-held cluster 2 in `c5OM` succeeds and changes the
membership — column 1 stops being a member of cluster 1. -/
theorem c5_replace_column_already_held_counterexample :
    (2 : Nat) ∈ (OrigMembership.clusters_for_column c5OM 1).getD [] ∧
    OrigMembership.replace_column_cluster c5OM 1 1 2 = .ok c5OMres ∧
    (1 : Nat) ∈ (OrigMembership.clusters_for_column c5OM 1).getD [] ∧
    (1 : Nat) ∉ (OrigMembership.clusters_for_column c5OMres 1).getD [] :=
  ⟨by decide, by rfl, by decide, by decide⟩

/-- **C5 (amended)**: `ClusterMembership.replace_row_cluster` (and its column
analog) are no-ops when the replacement equals the removed cluster or is
already held, and otherwise remove the old cluster and add the new one.
`OrigMembership.replace_row_cluster` takes a slot *index* and is a no-op
exactly when the new cluster is already held (which covers self-replacement);
`OrigMembership.replace_column_cluster` replaces unconditionally — only
replacing a cluster by itself is still a no-op, because the old value then
remains in the slot array and the reverse edge is re-added to a set that
already contains it. -/
theorem c5_replace_cluster_guard_behavior
    (m : ClusterMembership) (t : OrigMembership) :
    (∀ row c, m.replace_row_cluster row c c = .ok m) ∧
    (∀ row c r, m.is_row_in_cluster row r → m.replace_row_cluster row c r = .ok m) ∧
    (∀ col c, m.replace_column_cluster col c c = .ok m) ∧
    (∀ col c r, m.is_column_in_cluster col r →
      m.replace_column_cluster col c r = .ok m) ∧
    (∀ row c r m', m.WellFormed → c ≠ r →
      m.replace_row_cluster row c r = .ok m' → m' ≠ m →
      r ∈ m'.clusters_for_row row ∧ c ∉ m'.clusters_for_row row) ∧
    (∀ row idx new arr, alookup t.row_memb row = some arr →
      new ∈ arr.filter (fun x => 0 < x) →
      t.replace_row_cluster row idx new = .ok t) ∧
    (∀ col c arr s, keysNodup t.col_memb → keysNodup t.cluster_cols →
      alookup t.col_memb col = some arr → c ∈ arr →
      alookup t.cluster_cols c = some s → col ∈ s →
      t.replace_column_cluster col c c = .ok t) := by
  refine ⟨?_, ?_, ?_, ?_, ?_, ?_, ?_⟩
  · intro row c
    unfold ClusterMembership.replace_row_cluster
    rw [if_neg (by simp)]
  · intro row c r hheld
    unfold ClusterMembership.replace_row_cluster
    rw [if_neg (by simp [hheld])]
  · intro col c
    unfold ClusterMembership.replace_column_cluster
    rw [if_neg (by simp)]
  · intro col c r hheld
    unfold ClusterMembership.replace_column_cluster
    rw [if_neg (by simp [hheld])]
  · intro row c r m' hw hne h hchanged
    unfold ClusterMembership.replace_row_cluster at h
    by_cases hg : c ≠ r ∧ ¬ m.is_row_in_cluster row r
    · rw [if_pos hg] at h
      cases hrem : m.remove_cluster_from_row row c with
      | error s =>
        simp only [hrem] at h
        exact Except.noConfusion h
      | ok m1 =>
        simp only [hrem] at h
        have hforward := ClusterMembership.remove_row_ok_forward m m1 row c hw.1 hrem
        unfold ClusterMembership.add_cluster_to_row at h
        by_cases hcap : m1.num_clusters_for_row row ≥ m1.clusters_per_row
        · rw [if_pos hcap] at h; cases h
        · rw [if_neg hcap] at h
          cases h
          constructor
          · rw [ClusterMembership.addU_row_clusters_for_row, if_pos rfl, mem_setAdd]
            exact Or.inl rfl
          · rw [ClusterMembership.addU_row_clusters_for_row, if_pos rfl, mem_setAdd]
            rintro (hc | hc)
            · exact hne hc
            · exact hforward hc
    · rw [if_neg hg] at h
      cases h
      exact absurd rfl hchanged
  · intro row idx new arr hlook hheld
    simp only [OrigMembership.replace_row_cluster, hlook, if_pos hheld]
  · intro col c arr s hk1 hk2 hlook hcarr hlook2 hcs
    obtain ⟨idx, hidx⟩ : ∃ idx, pyIndex arr c = some idx := by
      cases hpi : pyIndex arr c with
      | none => exact absurd (pyIndex_none.mp hpi) (by simp [hcarr])
      | some i => exact ⟨i, rfl⟩
    have harr1 : arr.set idx c = arr := by
      have hgetd := (pyIndex_some hidx).2
      rw [← hgetd]
      exact set_getD_self arr idx
    have hset1 : aset t.col_memb col arr = t.col_memb := aset_lookup_self hk1 hlook
    have hsadd : setAdd s col = s := by
      unfold setAdd
      rw [if_pos hcs]
    have hset2 : aset t.cluster_cols c s = t.cluster_cols := aset_lookup_self hk2 hlook2
    simp only [OrigMembership.replace_column_cluster, hlook, hidx, harr1, hset1,
      if_pos hcarr, hlook2, Option.isSome_some, if_true, Option.getD_some, hsadd, hset2]

/-- `OrigMembership` state for the C5 witness: column 1 holds cluster 7. -/
def c5wOM : OrigMembership := ⟨2, 2, [], [(1, [7, 0])], [], [(7, [1])]⟩

/-- Witness for the amended C5: self-replacement is a no-op in both
representations at concrete states. -/
theorem c5_replace_cluster_guard_witness :
    ClusterMembership.replace_row_cluster c7CM 1 3 3 = .ok c7CM ∧
    OrigMembership.replace_column_cluster c5wOM 1 7 7 = .ok c5wOM := by
  have h := c5_replace_cluster_guard_behavior c7CM c5wOM
  refine ⟨h.1 1 3, ?_⟩
  exact h.2.2.2.2.2.2 1 7 [7, 0] [1] (by unfold keysNodup; decide)
    (by unfold keysNodup; decide) rfl (by decide) rfl (by decide)

/-! ## Claim C2 -/

/-- `OrigMembership` state of the C2 counterexample: row 1 is at capacity
with clusters 1 and 2. -/
def c2OM : OrigMembership := ⟨2, 2, [(1, [1, 2])], [], [(1, [1]), (2, [1])], []⟩

/-- Scores: the held clusters 1 and 2 score 10, the candidates 3 and 4
score 5 — every delta is negative. -/
def c2scores : List ℚ := [10, 10, 5, 5]

/-- What `replace_delta_row_member2` turns `c2OM` into: slot 0 is overwritten
with candidate 3 although candidate 3 scores strictly worse. -/
def c2OMres : OrigMembership := ⟨2, 2, [(1, [3, 2])], [], [(1, []), (2, [1]), (3, [1])], []⟩

/-- **C2 counterexample**: the claim says that when no held cluster has a
positive delta versus the candidate, the membership is left unchanged.  In
`c2OM` every candidate-versus-held delta is negative, the row is at capacity,
yet `replace_delta_row_member2` (whose guard is `deltas != 0.0`, not
`> 0`) replaces held cluster 1 by candidate 3. -/
theorem c2_replace_delta_negative_counterexample :
    (∀ cand ∈ [3, 4], ∀ held ∈ [1, 2],
      npIdx c2scores ((cand : Int) - 1) - npIdx c2scores ((held : Int) - 1) < 0) ∧
    OrigMembership.num_clusters_for_row c2OM 1 = c2OM.clusters_per_row ∧
    replace_delta_row_member2 c2OM 1 [3, 4] c2scores = .ok c2OMres ∧
    ((1 : Nat) ∈ OrigMembership.heldRowClusters c2OM 1 ∧
      (1 : Nat) ∉ OrigMembership.heldRowClusters c2OMres 1) := by
  refine ⟨?_, by decide, ?_, by decide, by decide⟩
  · intro cand hcand held hheld
    fin_cases hcand <;> fin_cases hheld <;>
      · simp only [npIdx, c2scores]
        norm_num [List.getD, Int.toNat]
  · show replace_delta_row_member2 c2OM 1 [3, 4] c2scores = .ok c2OMres
    unfold replace_delta_row_member2
    have hl : alookup c2OM.row_memb 1 = some [1, 2] := rfl
    simp only [hl]
    rw [if_pos ?hany]
    case hany =>
      refine List.any_eq_true.mpr ⟨npIdx c2scores 2 - npIdx c2scores 0, ?_, ?_⟩
      · simp [List.zip]
      · simp only [decide_eq_true_eq, npIdx, c2scores]
        norm_num [List.getD, Int.toNat]
    have hargmax : npArgmax ((([3, 4] : List Nat).zip ([1, 2] : List Nat)).map
        (fun p => npIdx c2scores ((p.1 : Int) - 1) - npIdx c2scores ((p.2 : Int) - 1))) = 0 := by
      have hd1 : npIdx c2scores ((3 : Int) - 1) - npIdx c2scores ((1 : Int) - 1) = -5 := by
        simp only [npIdx, c2scores]
        norm_num [List.getD, Int.toNat]
      have hd2 : npIdx c2scores ((4 : Int) - 1) - npIdx c2scores ((2 : Int) - 1) = -5 := by
        simp only [npIdx, c2scores]
        norm_num [List.getD, Int.toNat]
      show npArgmax [npIdx c2scores ((3 : Int) - 1) - npIdx c2scores ((1 : Int) - 1),
        npIdx c2scores ((4 : Int) - 1) - npIdx c2scores ((2 : Int) - 1)] = 0
      rw [hd1, hd2]
      simp only [npArgmax, npArgmaxAux]
      norm_num
    rw [hargmax]
    rfl

/-- **C2 (amended)**: `ClusterMembership.replace_delta_row_member` and
`replace_delta_column_member2` behave as the claim says: the delta is
computed for every currently held cluster, a replacement happens only for a
positive delta and targets a held cluster whose delta is maximal, and when no
held cluster has a positive delta the state is returned unchanged with result
0.  `replace_delta_row_member2` instead pairs the candidate list elementwise
with the slot array and performs a replacement at the argmax index whenever
*any* pairwise delta is nonzero — positive or not; it is a no-op only when
every pairwise delta is exactly zero. -/
theorem c2_replace_delta_characterization
    (m : ClusterMembership) (t : OrigMembership) (scores : List ℚ) :
    (∀ (row cluster : Nat) (cur : List Nat), alookup m.row_is_member_of row = some cur →
      (∀ c ∈ cur, npIdx scores ((cluster : Int) - 1) -
          npIdx scores ((c : Int) - 1) ≤ 0) →
      m.replace_delta_row_member row cluster scores = .ok (m, 0)) ∧
    (∀ (row cluster : Nat) (cur : List Nat) (m1 : ClusterMembership) (c0 : Nat),
      alookup m.row_is_member_of row = some cur →
      m.replace_delta_row_member row cluster scores = .ok (m1, c0) → c0 ≠ 0 →
      c0 ∈ cur ∧
      0 < npIdx scores ((cluster : Int) - 1) - npIdx scores ((c0 : Int) - 1) ∧
      (∀ c ∈ cur, npIdx scores ((cluster : Int) - 1) - npIdx scores ((c : Int) - 1) ≤
        npIdx scores ((cluster : Int) - 1) - npIdx scores ((c0 : Int) - 1)) ∧
      m.replace_row_cluster row c0 cluster = .ok m1) ∧
    (∀ (col cluster : Nat) (cur : List Nat), t.clusters_for_column col = some cur →
      (∀ c ∈ cur, npIdx scores ((cluster : Int) - 1) -
          npIdx scores ((c : Int) - 1) ≤ 0) →
      replace_delta_column_member2 t col cluster scores = .ok (t, 0)) ∧
    (∀ (col cluster : Nat) (cur : List Nat) (t1 : OrigMembership) (c0 : Nat),
      t.clusters_for_column col = some cur →
      replace_delta_column_member2 t col cluster scores = .ok (t1, c0) → c0 ≠ 0 →
      c0 ∈ cur ∧
      0 < npIdx scores ((cluster : Int) - 1) - npIdx scores ((c0 : Int) - 1) ∧
      (∀ c ∈ cur, npIdx scores ((cluster : Int) - 1) - npIdx scores ((c : Int) - 1) ≤
        npIdx scores ((cluster : Int) - 1) - npIdx scores ((c0 : Int) - 1)) ∧
      t.replace_column_cluster col c0 cluster = .ok t1) ∧
    (∀ (row : Nat) (rm arr : List Nat), alookup t.row_memb row = some arr →
      (∀ p ∈ rm.zip arr,
        npIdx scores ((p.1 : Int) - 1) - npIdx scores ((p.2 : Int) - 1) = 0) →
      replace_delta_row_member2 t row rm scores = .ok t) ∧
    (∀ (row : Nat) (rm arr : List Nat), alookup t.row_memb row = some arr →
      (∃ p ∈ rm.zip arr,
        npIdx scores ((p.1 : Int) - 1) - npIdx scores ((p.2 : Int) - 1) ≠ 0) →
      replace_delta_row_member2 t row rm scores =
        t.replace_row_cluster row
          (npArgmax ((rm.zip arr).map (fun p =>
            npIdx scores ((p.1 : Int) - 1) - npIdx scores ((p.2 : Int) - 1))))
          (rm.getD (npArgmax ((rm.zip arr).map (fun p =>
            npIdx scores ((p.1 : Int) - 1) - npIdx scores ((p.2 : Int) - 1)))) 0)) := by
  refine ⟨?_, ?_, ?_, ?_, ?_, ?_⟩
  · intro row cluster cur hlook hneg
    unfold ClusterMembership.replace_delta_row_member
    simp only [hlook]
    cases hsort : sortDesc (cur.map (fun (c : Nat) =>
        (npIdx scores ((cluster : Int) - 1) - npIdx scores ((c : Int) - 1), c))) with
    | nil => rfl
    | cons hd rest =>
      obtain ⟨d, c2⟩ := hd
      obtain ⟨c1, hc1, hfc1⟩ := List.mem_map.mp (sortDesc_head_mem hsort)
      have hd1 : d = npIdx scores ((cluster : Int) - 1) -
          npIdx scores ((c1 : Int) - 1) := by
        have := congrArg Prod.fst hfc1
        simpa using this.symm
      have hle : ¬ (0 < d) := by
        rw [hd1]
        exact not_lt_of_le (hneg c1 hc1)
      simp only [hsort]
      rw [if_neg hle]
  · intro row cluster cur m1 c0 hlook h hc0
    unfold ClusterMembership.replace_delta_row_member at h
    simp only [hlook] at h
    cases hsort : sortDesc (cur.map (fun (c : Nat) =>
        (npIdx scores ((cluster : Int) - 1) - npIdx scores ((c : Int) - 1), c))) with
    | nil =>
      rw [hsort] at h
      cases h
      exact absurd rfl hc0
    | cons hd rest =>
      obtain ⟨d, c2⟩ := hd
      simp only [hsort] at h
      by_cases hpos : 0 < d
      · rw [if_pos hpos] at h
        cases hrepl : m.replace_row_cluster row c2 cluster with
        | error s =>
          simp only [hrepl] at h
          exact (Except.noConfusion h)
        | ok m2 =>
          simp only [hrepl] at h
          have hpair : (m2, c2) = (m1, c0) := by injection h
          have hm : m2 = m1 := congrArg Prod.fst hpair
          have hcc : c2 = c0 := congrArg Prod.snd hpair
          subst hm
          subst hcc
          obtain ⟨c1, hc1, hfc1⟩ := List.mem_map.mp (sortDesc_head_mem hsort)
          have hc1eq : c1 = c2 := congrArg Prod.snd hfc1
          have hd1 : d = npIdx scores ((cluster : Int) - 1) -
              npIdx scores ((c2 : Int) - 1) := by
            have := congrArg Prod.fst hfc1
            rw [hc1eq] at this
            exact this.symm
          subst hc1eq
          refine ⟨hc1, by rw [← hd1]; exact hpos, ?_, hrepl⟩
          intro c hc
          have hmax := sortDesc_head_max hsort
            (npIdx scores ((cluster : Int) - 1) - npIdx scores ((c : Int) - 1), c)
            (List.mem_map.mpr ⟨c, hc, rfl⟩)
          rw [← hd1]
          exact hmax
      · rw [if_neg hpos] at h
        cases h
        exact absurd rfl hc0
  · intro col cluster cur hlook hneg
    unfold replace_delta_column_member2
    simp only [hlook]
    cases hsort : sortDesc (cur.map (fun (c : Nat) =>
        (npIdx scores ((cluster : Int) - 1) - npIdx scores ((c : Int) - 1), c))) with
    | nil => rfl
    | cons hd rest =>
      obtain ⟨d, c2⟩ := hd
      obtain ⟨c1, hc1, hfc1⟩ := List.mem_map.mp (sortDesc_head_mem hsort)
      have hd1 : d = npIdx scores ((cluster : Int) - 1) -
          npIdx scores ((c1 : Int) - 1) := by
        have := congrArg Prod.fst hfc1
        simpa using this.symm
      have hle : ¬ (0 < d) := by
        rw [hd1]
        exact not_lt_of_le (hneg c1 hc1)
      simp only [hsort]
      rw [if_neg hle]
  · intro col cluster cur t1 c0 hlook h hc0
    unfold replace_delta_column_member2 at h
    simp only [hlook] at h
    cases hsort : sortDesc (cur.map (fun (c : Nat) =>
        (npIdx scores ((cluster : Int) - 1) - npIdx scores ((c : Int) - 1), c))) with
    | nil =>
      rw [hsort] at h
      cases h
      exact absurd rfl hc0
    | cons hd rest =>
      obtain ⟨d, c2⟩ := hd
      simp only [hsort] at h
      by_cases hpos : 0 < d
      · rw [if_pos hpos] at h
        cases hrepl : t.replace_column_cluster col c2 cluster with
        | error s =>
          simp only [hrepl] at h
          exact (Except.noConfusion h)
        | ok t2 =>
          simp only [hrepl] at h
          have hpair : (t2, c2) = (t1, c0) := by injection h
          have hm : t2 = t1 := congrArg Prod.fst hpair
          have hcc : c2 = c0 := congrArg Prod.snd hpair
          subst hm
          subst hcc
          obtain ⟨c1, hc1, hfc1⟩ := List.mem_map.mp (sortDesc_head_mem hsort)
          have hc1eq : c1 = c2 := congrArg Prod.snd hfc1
          have hd1 : d = npIdx scores ((cluster : Int) - 1) -
              npIdx scores ((c2 : Int) - 1) := by
            have := congrArg Prod.fst hfc1
            rw [hc1eq] at this
            exact this.symm
          subst hc1eq
          refine ⟨hc1, by rw [← hd1]; exact hpos, ?_, hrepl⟩
          intro c hc
          have hmax := sortDesc_head_max hsort
            (npIdx scores ((cluster : Int) - 1) - npIdx scores ((c : Int) - 1), c)
            (List.mem_map.mpr ⟨c, hc, rfl⟩)
          rw [← hd1]
          exact hmax
      · rw [if_neg hpos] at h
        cases h
        exact absurd rfl hc0
  · intro row rm arr hlook hzero
    unfold replace_delta_row_member2
    simp only [hlook]
    rw [if_neg ?hall]
    case hall =>
      intro hany
      obtain ⟨d, hd, hdt⟩ := List.any_eq_true.mp hany
      obtain ⟨p, hp, hfp⟩ := List.mem_map.mp hd
      rw [← hfp] at hdt
      simp only [decide_eq_true_eq] at hdt
      exact hdt (hzero p hp)
  · intro row rm arr hlook hex
    unfold replace_delta_row_member2
    simp only [hlook]
    rw [if_pos ?hsome]
    case hsome =>
      obtain ⟨p, hp, hpd⟩ := hex
      refine List.any_eq_true.mpr ⟨npIdx scores ((p.1 : Int) - 1) -
        npIdx scores ((p.2 : Int) - 1), List.mem_map.mpr ⟨p, hp, rfl⟩, ?_⟩
      simpa using hpd

/-- `ClusterMembership` state for the C2 witness: row 1 at capacity with
clusters 1 and 2. -/
def c2wCM : ClusterMembership := ⟨2, 2, [(1, [1, 2])], [], [(1, [1]), (2, [1])], []⟩

/-- Witness for the amended C2: with no positive delta the checked variant
leaves the state unchanged, and with all-zero pairwise deltas
`replace_delta_row_member2` is a no-op. -/
theorem c2_replace_delta_witness :
    alookup c2wCM.row_is_member_of 1 = some [1, 2] ∧
    ClusterMembership.replace_delta_row_member c2wCM 1 3 c2scores = .ok (c2wCM, 0) ∧
    alookup c2OM.row_memb 1 = some [1, 2] ∧
    replace_delta_row_member2 c2OM 1 [1, 2] c2scores = .ok c2OM := by
  have h := c2_replace_delta_characterization c2wCM c2OM c2scores
  refine ⟨rfl, ?_, rfl, ?_⟩
  · refine h.1 1 3 [1, 2] rfl ?_
    intro c hc
    fin_cases hc <;>
      · simp only [npIdx, c2scores]
        norm_num [List.getD, Int.toNat]
  · refine h.2.2.2.2.1 1 [1, 2] [1, 2] rfl ?_
    intro p hp
    fin_cases hp <;>
      · simp only [npIdx, c2scores]
        norm_num [List.getD, Int.toNat]

/-! ## Claim C3 -/

/-- `OrigMembership` state of the C3 counterexample: row 1 holds cluster 5
and has one free slot. -/
def c3OM : OrigMembership := ⟨2, 2, [(1, [5, 0])], [], [(5, [1])], []⟩

/-- Scores indexed by cluster: cluster 2 scores 100, cluster 7 scores 1. -/
def c3scores : List ℚ := [0, 100, 0, 0, 0, 0, 1]

/-- What the `update_for_rows2` change body turns `c3OM` into: cluster 7 is
assigned. -/
def c3OMres : OrigMembership := ⟨2, 2, [(1, [5, 7])], [], [(5, [1]), (7, [1])], []⟩

/-- **C3 counterexample**: the claim says a gated row below capacity with a
non-empty candidate list is assigned the best-scoring unheld candidate.  In
`c3OM`, with candidates `[2, 7]` (sorted by cluster number, as
`update_for_rows2` builds them) and cluster 2 scoring far higher, the change
body takes `clusters[free_slot] = clusters[1] = 7` — not the best-scoring
unheld candidate 2 — and consumes no candidate. -/
theorem c3_update_rows2_not_best_counterexample :
    OrigMembership.num_clusters_for_row c3OM 1 < c3OM.clusters_per_row ∧
    (∀ c ∈ [2, 7], c ∉ OrigMembership.heldRowClusters c3OM 1) ∧
    bestScoringUnheldCandidate c3scores
      (OrigMembership.heldRowClusters c3OM 1) [2, 7] = some 2 ∧
    update_for_rows2_change c3OM 1 [2, 7] c3scores = .ok c3OMres ∧
    (7 : Nat) ∈ OrigMembership.heldRowClusters c3OMres 1 ∧
    (2 : Nat) ∉ OrigMembership.heldRowClusters c3OMres 1 := by
  refine ⟨by decide, by decide, by decide, by rfl, by decide, by decide⟩

/-- The foldl of `bestScoringUnheldCandidate` keeps its start element when
that element's score dominates. -/
theorem foldl_best_keeps_head (scores : List ℚ) (c : Nat) (cs : List Nat)
    (h : ∀ c2 ∈ cs, npIdx scores ((c2 : Int) - 1) ≤ npIdx scores ((c : Int) - 1)) :
    cs.foldl (fun (best c2 : Nat) =>
      if npIdx scores ((c2 : Int) - 1) > npIdx scores ((best : Int) - 1)
      then c2 else best) c = c := by
  induction cs with
  | nil => rfl
  | cons c2 cs2 ih =>
    simp only [List.foldl_cons]
    rw [if_neg (not_lt_of_le (h c2 (List.mem_cons_self _ _)))]
    exact ih (fun c3 hc3 => h c3 (List.mem_cons_of_mem _ hc3))

/-- **C3 (amended)**: In the set-based updater (`update_for_rows`), a gated
row below capacity with a non-empty candidate list receives the *first*
candidate — which is the best-scoring unheld candidate whenever the candidate
list is score-ordered, as `clusters_not_in_row` over the score-ordered best
list produces it — through the checked add, and one candidate is consumed.
In `update_for_rows2`, the row instead receives the candidate sitting at the
*free-slot index* of the cluster-number-sorted candidate list (only when that
candidate happens to be unheld), and the candidate list is never consumed; in
`update_for_cols2` the add statement reads an undefined variable, so a column
with a free slot is routed to the delta-replacement path instead. -/
theorem c3_update_below_capacity_behavior
    (m : ClusterMembership) (t : OrigMembership) (scores : List ℚ) :
    (∀ (row : Nat) (clusters : List Nat), 0 < clusters.length →
      m.num_clusters_for_row row < m.clusters_per_row →
      update_for_rows_change m row clusters scores =
        .ok (m.addClusterToRowUnchecked row (clusters.headD 0), clusters.tail) ∧
      (clusters.headD 0) ∈
        (m.addClusterToRowUnchecked row (clusters.headD 0)).clusters_for_row row) ∧
    (∀ (held : List Nat) (c : Nat) (cs : List Nat),
      (∀ c2 ∈ c :: cs, c2 ∉ held) →
      (∀ c2 ∈ c :: cs, npIdx scores ((c2 : Int) - 1) ≤ npIdx scores ((c : Int) - 1)) →
      bestScoringUnheldCandidate scores held (c :: cs) = some c) ∧
    (∀ (row fs : Nat) (clusters : List Nat),
      t.first_free_slot_for_row row = some fs →
      fs < clusters.length →
      clusters.getD fs 0 ∉ (t.clusters_for_row row).getD [] →
      ∃ t1, t.add_cluster_to_row row (clusters.getD fs 0) false = .ok t1 ∧
        update_for_rows2_change t row clusters scores = .ok t1) ∧
    (∀ (col fs : Nat) (clusters : List Nat),
      t.first_free_slot_for_column col = some fs →
      fs < clusters.length →
      clusters.getD fs 0 ∉ (t.clusters_for_column col).getD [] →
      update_for_cols2_change t col clusters scores =
        (match replace_delta_column_member2 t col (clusters.headD 0) scores with
          | .error s => .error s
          | .ok (t1, _) => .ok t1)) := by
  refine ⟨?_, ?_, ?_, ?_⟩
  · intro row clusters hlen hcap
    unfold update_for_rows_change
    rw [if_pos hlen]
    rw [if_pos hcap]
    unfold ClusterMembership.add_cluster_to_row
    rw [if_neg (not_le_of_lt hcap)]
    refine ⟨rfl, ?_⟩
    rw [ClusterMembership.addU_row_clusters_for_row, if_pos rfl, mem_setAdd]
    exact Or.inl rfl
  · intro held c cs hunheld hbest
    unfold bestScoringUnheldCandidate
    have hfilter : (c :: cs).filter (fun c2 => c2 ∉ held) = c :: cs := by
      refine List.filter_eq_self.mpr ?_
      intro a ha
      simpa using hunheld a ha
    rw [hfilter]
    simp only [Option.some.injEq]
    exact foldl_best_keeps_head scores c cs
      (fun c2 hc2 => hbest c2 (List.mem_cons_of_mem _ hc2))
  · intro row fs clusters hfs hlt hunheld
    have hex : ∃ arr, alookup t.row_memb row = some arr ∧ pyIndex arr 0 = some fs := by
      unfold OrigMembership.first_free_slot_for_row at hfs
      cases hlook : alookup t.row_memb row with
      | none => rw [hlook] at hfs; cases hfs
      | some arr =>
        rw [hlook] at hfs
        exact ⟨arr, rfl, hfs⟩
    obtain ⟨arr, hlook, hpi⟩ := hex
    refine ⟨OrigMembership.addReverseRow
        { t with row_memb := aset t.row_memb row (arr.set fs (clusters.getD fs 0)) }
        (clusters.getD fs 0) row, ?_, ?_⟩
    · simp only [OrigMembership.add_cluster_to_row, hlook, hpi]
    · unfold update_for_rows2_change
      rw [if_pos (lt_of_le_of_lt (Nat.zero_le fs) hlt), hfs]
      simp only [if_pos hlt, if_neg hunheld]
      simp only [OrigMembership.add_cluster_to_row, hlook, hpi]
  · intro col fs clusters hfs hlt hunheld
    unfold update_for_cols2_change
    rw [if_pos (lt_of_le_of_lt (Nat.zero_le fs) hlt), hfs]
    simp only [if_pos hlt, if_neg hunheld]

/-- Witness for the amended C3: the set-based change body adds the first
candidate and consumes it; the slot-based change body performs the free-slot
indexed assignment computed by the counterexample state. -/
theorem c3_update_below_capacity_witness :
    update_for_rows_change c7CM 1 [8, 9] c3scores =
      .ok (ClusterMembership.addClusterToRowUnchecked c7CM 1 8, [9]) ∧
    bestScoringUnheldCandidate c3scores [5] [2, 7] = some 2 ∧
    update_for_rows2_change c3OM 1 [2, 7] c3scores = .ok c3OMres := by
  have h := c3_update_below_capacity_behavior c7CM c3OM c3scores
  refine ⟨(h.1 1 [8, 9] (by decide) (by decide)).1, by decide, ?_⟩
  obtain ⟨t1, hadd, hstep⟩ := h.2.2.1 1 1 [2, 7] rfl (by decide) (by decide)
  have ht1 : t1 = c3OMres := by
    have hok : Except.ok t1 = (Except.ok c3OMres : Except OrigMembership OrigMembership) := by
      rw [← hadd]
      rfl
    injection hok
  rw [← ht1]
  exact hstep

/-! ## Claim C8 -/

theorem keysNodup_mapVals (f : List Nat → List Nat) (a : AMap)
    (h : keysNodup a) : keysNodup (a.map (fun p => (p.1, f p.2))) := by
  unfold keysNodup at h ⊢
  rw [List.map_map]
  simpa [Function.comp] using h

theorem mem_padTruncate_pos {arr : List Nat} {n x : Nat} (hx : 0 < x)
    (hlen : arr.length ≤ n) : x ∈ padTruncate arr n ↔ x ∈ arr := by
  unfold padTruncate
  rw [List.take_of_length_le hlen]
  simp only [List.mem_append, List.mem_replicate]
  constructor
  · rintro (h | ⟨_, h⟩)
    · exact h
    · exact absurd (h ▸ hx) (by simp)
  · exact Or.inl

theorem mem_create_lookup {fwd : AMap} (hk : keysNodup fwd) (y c : Nat) :
    y ∈ (alookup (create_cluster_to_names_map fwd) c).getD [] ↔
      c ∈ (alookup fwd y).getD [] := by
  rw [mem_create_cluster_to_names_map]
  constructor
  · rintro ⟨l, hl, hc⟩
    rw [mem_alookup_of_keysNodup hk hl]
    simpa using hc
  · intro hc
    cases hlook : alookup fwd y with
    | none => rw [hlook] at hc; simp at hc
    | some l =>
      rw [hlook] at hc
      exact ⟨l, alookup_mem hlook, by simpa using hc⟩

theorem mem_cluster2names_lookup {fwd : AMap} (hk : keysNodup fwd) (y c : Nat) :
    y ∈ (alookup (cluster2names_map fwd) c).getD [] ↔
      (c ∈ (alookup fwd y).getD [] ∧ 0 < c) := by
  rw [mem_cluster2names_map]
  constructor
  · rintro ⟨l, hl, hc, hpos⟩
    rw [mem_alookup_of_keysNodup hk hl]
    exact ⟨by simpa using hc, hpos⟩
  · rintro ⟨hc, hpos⟩
    cases hlook : alookup fwd y with
    | none => rw [hlook] at hc; simp at hc
    | some l =>
      rw [hlook] at hc
      exact ⟨l, alookup_mem hlook, by simpa using hc, hpos⟩

/-- **C8 (amended)**: the checkpoint round trip — serialising only the two
forward maps and rebuilding the inverse maps in the constructor — restores
`clusters_for_row`, `clusters_for_column`, `rows_for_cluster` and
`columns_for_cluster` exactly (as sets) for every row, column and cluster,
for every consistent `ClusterMembership` state, and for every consistent
`OrigMembership` state **whose slot arrays are within the configured
widths**; the `OrigMembership` constructor truncates longer arrays (which
the forced adds of post-adjustment create), so for those states the round
trip loses memberships. -/
theorem c8_checkpoint_roundtrip_exact (m : ClusterMembership) (t : OrigMembership)
    (hkr : keysNodup m.row_is_member_of) (hkc : keysNodup m.column_is_member_of)
    (hmc : m.Consistent)
    (htkr : keysNodup t.row_memb) (htkc : keysNodup t.col_memb)
    (htc : t.Consistent)
    (hlenr : ∀ p ∈ t.row_memb, p.2.length ≤ t.clusters_per_row)
    (hlenc : ∀ p ∈ t.col_memb, p.2.length ≤ t.clusters_per_col) :
    (∀ r x, x ∈ (m.checkpointRoundTrip).clusters_for_row r ↔
      x ∈ m.clusters_for_row r) ∧
    (∀ col x, x ∈ (m.checkpointRoundTrip).clusters_for_column col ↔
      x ∈ m.clusters_for_column col) ∧
    (∀ c x, x ∈ (m.checkpointRoundTrip).rows_for_cluster c ↔
      x ∈ m.rows_for_cluster c) ∧
    (∀ c x, x ∈ (m.checkpointRoundTrip).columns_for_cluster c ↔
      x ∈ m.columns_for_cluster c) ∧
    (∀ r x, 0 < x → (x ∈ (t.checkpointRoundTrip).heldRowClusters r ↔
      x ∈ t.heldRowClusters r)) ∧
    (∀ col x, 0 < x → (x ∈ (t.checkpointRoundTrip).heldColClusters col ↔
      x ∈ t.heldColClusters col)) ∧
    (∀ c x, 0 < c → (x ∈ (t.checkpointRoundTrip).rows_for_cluster c ↔
      x ∈ t.rows_for_cluster c)) ∧
    (∀ c x, 0 < c → (x ∈ (t.checkpointRoundTrip).columns_for_cluster c ↔
      x ∈ t.columns_for_cluster c)) := by
  refine ⟨?_, ?_, ?_, ?_, ?_, ?_, ?_, ?_⟩
  · intro r x
    show x ∈ ((alookup (m.row_is_member_of.map (fun p => (p.1, p.2.dedup))) r).getD []) ↔
      x ∈ (alookup m.row_is_member_of r).getD []
    rw [alookup_mapVals]
    cases alookup m.row_is_member_of r with
    | none => simp
    | some l => simp [List.mem_dedup]
  · intro col x
    show x ∈ ((alookup (m.column_is_member_of.map (fun p => (p.1, p.2.dedup))) col).getD []) ↔
      x ∈ (alookup m.column_is_member_of col).getD []
    rw [alookup_mapVals]
    cases alookup m.column_is_member_of col with
    | none => simp
    | some l => simp [List.mem_dedup]
  · intro c x
    show x ∈ (alookup (create_cluster_to_names_map
        (m.row_is_member_of.map (fun p => (p.1, p.2.dedup)))) c).getD [] ↔
      x ∈ m.rows_for_cluster c
    rw [mem_create_lookup (keysNodup_mapVals _ _ hkr), alookup_mapVals]
    have hinv := hmc.1 x c
    unfold ClusterMembership.clusters_for_row at hinv
    cases hlook : alookup m.row_is_member_of x with
    | none =>
      rw [hlook] at hinv
      simp only [Option.map_none', Option.getD_none]
      rw [← hinv]
      simp
    | some l =>
      rw [hlook] at hinv
      simp only [Option.map_some', Option.getD_some, List.mem_dedup]
      rw [← hinv]
      simp
  · intro c x
    show x ∈ (alookup (create_cluster_to_names_map
        (m.column_is_member_of.map (fun p => (p.1, p.2.dedup)))) c).getD [] ↔
      x ∈ m.columns_for_cluster c
    rw [mem_create_lookup (keysNodup_mapVals _ _ hkc), alookup_mapVals]
    have hinv := hmc.2 x c
    unfold ClusterMembership.clusters_for_column at hinv
    cases hlook : alookup m.column_is_member_of x with
    | none =>
      rw [hlook] at hinv
      simp only [Option.map_none', Option.getD_none]
      rw [← hinv]
      simp
    | some l =>
      rw [hlook] at hinv
      simp only [Option.map_some', Option.getD_some, List.mem_dedup]
      rw [← hinv]
      simp
  · intro r x hx
    show x ∈ ((alookup (t.row_memb.map
        (fun p => (p.1, padTruncate p.2 t.clusters_per_row))) r).getD []).filter
        (fun z => 0 < z) ↔ x ∈ t.heldRowClusters r
    rw [alookup_mapVals (fun l => padTruncate l t.clusters_per_row) t.row_memb r]
    unfold OrigMembership.heldRowClusters
    cases hlook : alookup t.row_memb r with
    | none => simp
    | some arr =>
      have hle : arr.length ≤ t.clusters_per_row := hlenr _ (alookup_mem hlook)
      simp only [Option.map_some', Option.getD_some, List.mem_filter,
        decide_eq_true_eq]
      rw [mem_padTruncate_pos hx hle]
  · intro col x hx
    show x ∈ ((alookup (t.col_memb.map
        (fun p => (p.1, padTruncate p.2 t.clusters_per_col))) col).getD []).filter
        (fun z => 0 < z) ↔ x ∈ t.heldColClusters col
    rw [alookup_mapVals (fun l => padTruncate l t.clusters_per_col) t.col_memb col]
    unfold OrigMembership.heldColClusters
    cases hlook : alookup t.col_memb col with
    | none => simp
    | some arr =>
      have hle : arr.length ≤ t.clusters_per_col := hlenc _ (alookup_mem hlook)
      simp only [Option.map_some', Option.getD_some, List.mem_filter,
        decide_eq_true_eq]
      rw [mem_padTruncate_pos hx hle]
  · intro c x hc
    show x ∈ (alookup (cluster2names_map (t.row_memb.map
        (fun p => (p.1, padTruncate p.2 t.clusters_per_row)))) c).getD [] ↔
      x ∈ t.rows_for_cluster c
    rw [mem_cluster2names_lookup
        (keysNodup_mapVals (fun l => padTruncate l t.clusters_per_row) t.row_memb htkr),
      alookup_mapVals (fun l => padTruncate l t.clusters_per_row) t.row_memb x]
    have hinv := htc.1 x c hc
    unfold OrigMembership.heldRowClusters at hinv
    cases hlook : alookup t.row_memb x with
    | none =>
      rw [hlook] at hinv
      simp only [Option.map_none', Option.getD_none] at hinv ⊢
      rw [← hinv]
      simp
    | some arr =>
      rw [hlook] at hinv
      have hle : arr.length ≤ t.clusters_per_row := hlenr _ (alookup_mem hlook)
      simp only [Option.map_some', Option.getD_some] at hinv ⊢
      rw [mem_padTruncate_pos hc hle, ← hinv]
      simp only [List.mem_filter, decide_eq_true_eq]
  · intro c x hc
    show x ∈ (alookup (cluster2names_map (t.col_memb.map
        (fun p => (p.1, padTruncate p.2 t.clusters_per_col)))) c).getD [] ↔
      x ∈ t.columns_for_cluster c
    rw [mem_cluster2names_lookup
        (keysNodup_mapVals (fun l => padTruncate l t.clusters_per_col) t.col_memb htkc),
      alookup_mapVals (fun l => padTruncate l t.clusters_per_col) t.col_memb x]
    have hinv := htc.2 x c hc
    unfold OrigMembership.heldColClusters at hinv
    cases hlook : alookup t.col_memb x with
    | none =>
      rw [hlook] at hinv
      simp only [Option.map_none', Option.getD_none] at hinv ⊢
      rw [← hinv]
      simp
    | some arr =>
      rw [hlook] at hinv
      have hle : arr.length ≤ t.clusters_per_col := hlenc _ (alookup_mem hlook)
      simp only [Option.map_some', Option.getD_some] at hinv ⊢
      rw [mem_padTruncate_pos hc hle, ← hinv]
      simp only [List.mem_filter, decide_eq_true_eq]

def c8OM : OrigMembership := ⟨1, 1, [(7, [1])], [], [(1, [7])], []⟩

def c8OMforced : OrigMembership :=
  ⟨1, 1, [(7, [1, 2])], [], [(1, [7]), (2, [7])], []⟩

/-- **C8 counterexample**: a forced add (`force=True`, as used by the
post-adjustment code) pushes row 7's slot array beyond `num_clusters_per_row`;
the checkpoint round trip truncates the array back to the configured width in
the constructor, so cluster 2 — held before the round trip, in both the
forward and the derived inverse map — is silently dropped: the restored state
is not membership-equivalent to the saved one. -/
theorem c8_roundtrip_loses_forced_cluster_counterexample :
    OrigMembership.add_cluster_to_row c8OM 7 2 true = .ok c8OMforced ∧
    (2 : Nat) ∈ c8OMforced.heldRowClusters 7 ∧
    (2 : Nat) ∉ (OrigMembership.checkpointRoundTrip c8OMforced).heldRowClusters 7 ∧
    (7 : Nat) ∈ c8OMforced.rows_for_cluster 2 ∧
    (7 : Nat) ∉ (OrigMembership.checkpointRoundTrip c8OMforced).rows_for_cluster 2 :=
  ⟨rfl, by decide, by decide, by decide, by decide⟩

def c8wCM : ClusterMembership := ⟨2, 2, [(1, [3])], [], [(3, [1])], []⟩

def c8wOM : OrigMembership := ⟨2, 2, [(1, [5, 0])], [], [(5, [1])], []⟩

theorem c8_checkpoint_roundtrip_witness :
    ClusterMembership.checkpointRoundTrip c8wCM = c8wCM ∧
    OrigMembership.checkpointRoundTrip c8wOM = c8wOM ∧
    ((3 : Nat) ∈ (ClusterMembership.checkpointRoundTrip c8wCM).clusters_for_row 1 ↔
      (3 : Nat) ∈ c8wCM.clusters_for_row 1) ∧
    ((1 : Nat) ∈ (OrigMembership.checkpointRoundTrip c8wOM).rows_for_cluster 5 ↔
      (1 : Nat) ∈ c8wOM.rows_for_cluster 5) := by
  have hkr : keysNodup c8wCM.row_is_member_of := by unfold keysNodup; decide
  have hkc : keysNodup c8wCM.column_is_member_of := by unfold keysNodup; decide
  have hmc : c8wCM.Consistent := by
    constructor <;> intro r c <;>
      by_cases hr : (1 : Nat) = r <;> by_cases hc : (3 : Nat) = c <;>
      simp [c8wCM, ClusterMembership.clusters_for_row,
        ClusterMembership.rows_for_cluster, ClusterMembership.clusters_for_column,
        ClusterMembership.columns_for_cluster, alookup, hr, hc] <;> omega
  have htkr : keysNodup c8wOM.row_memb := by unfold keysNodup; decide
  have htkc : keysNodup c8wOM.col_memb := by unfold keysNodup; decide
  have htc : c8wOM.Consistent := by
    constructor <;> intro r c hpos <;>
      by_cases hr : (1 : Nat) = r <;> by_cases hc : (5 : Nat) = c <;>
      simp [c8wOM, OrigMembership.heldRowClusters, OrigMembership.rows_for_cluster,
        OrigMembership.heldColClusters, OrigMembership.columns_for_cluster,
        alookup, hr, hc] <;> omega
  have hlenr : ∀ p ∈ c8wOM.row_memb, p.2.length ≤ c8wOM.clusters_per_row := by
    intro p hp
    simp only [c8wOM, List.mem_singleton] at hp
    subst hp
    decide
  have hlenc : ∀ p ∈ c8wOM.col_memb, p.2.length ≤ c8wOM.clusters_per_col := by
    intro p hp
    simp [c8wOM] at hp
  have h := c8_checkpoint_roundtrip_exact c8wCM c8wOM hkr hkc hmc htkr htkc htc
    hlenr hlenc
  exact ⟨rfl, rfl, h.1 1 3, h.2.2.2.2.2.2.1 5 1 (by decide)⟩
